import Mathlib

/-!
# Verification of the SEPA pipeline (validator, loader, pipeline orchestration)

Shallow embedding of `src/sepa_pipeline/validator.py`, `loader.py` and
`pipeline.py`.  Polars DataFrames are modelled as a column list plus a list
of rows, where each row is an association list from column name to a tagged
cell value.  All columns read from the SEPA CSVs are read as Utf8 strings
(see `get_schema_dict`), so cells are strings or nulls at validator entry;
the soft casts then introduce ints, floats (kept as exact decimals) and
booleans.  Database effects of the loader are modelled as pure state
transitions on a `DBState`; exceptions are modelled with `Except`.
-/

set_option maxHeartbeats 1000000

namespace SEPA

/-- A parsed Float64 value, kept as the exact decimal
`man / 10 ^ scale`.  The pipeline only stores floats, tests their sign and
truncates them toward zero; none of those observations distinguishes this
exact representation from IEEE doubles on the decimal literals the feed
carries. -/
structure Flt where
  man : Int
  scale : Nat
deriving DecidableEq, Repr

/-- Truncation toward zero of `man / 10 ^ scale` (float → int cast
semantics). -/
def fltTrunc (f : Flt) : Int :=
  let d := (10 : Nat) ^ f.scale
  match f.man with
  | Int.ofNat m => Int.ofNat (m / d)
  | Int.negSucc m => - Int.ofNat ((m + 1) / d)

/-- `man ≤ 0` decides `value ≤ 0` since the denominator is positive. -/
def fltNonPos (f : Flt) : Bool := decide (f.man ≤ 0)

/-- A single cell value of a DataFrame. -/
inductive Val where
  | null
  | str (s : String)
  | int (n : Int)
  | flt (f : Flt)
  | bool (b : Bool)
deriving DecidableEq, Repr

/-- A row: association list from column name to cell value. -/
abbrev Row := List (String × Val)

/-- A DataFrame: the column list (`df.columns`) and the rows. -/
structure DF where
  cols : List String
  rows : List Row
deriving DecidableEq, Repr

/-- Cell lookup: `null` for an absent column (callers guard presence via the
required-column checks; the loader treats absent optional columns as null,
matching its add-missing-columns-with-nulls step). -/
def getV : Row → String → Val
  | [], _ => Val.null
  | p :: ps, c => if p.1 = c then p.2 else getV ps c

/-- `with_columns` with an alias: replace the value in place when the column
exists (keeping its position), append the column otherwise. -/
def setV (r : Row) (c : String) (v : Val) : Row :=
  if r.any (fun p => p.1 = c) then
    r.map (fun p => if p.1 = c then (c, v) else p)
  else
    r ++ [(c, v)]

/-! ## String helpers (models of the polars string expressions used) -/

/-- `str.strip_chars()` with no argument: strip whitespace on both ends. -/
def stripChars (s : String) : String :=
  String.mk (((s.toList.dropWhile Char.isWhitespace).reverse.dropWhile
    Char.isWhitespace).reverse)

/-- Lowercase (`str.to_lowercase`). -/
def lowerStr (s : String) : String :=
  String.mk (s.toList.map Char.toLower)

/-- Substring containment (`str.contains` with a plain-text pattern). -/
def containsSub (s pat : String) : Bool :=
  decide (pat.toList <:+: s.toList)

/-- The footer marker substring matched by `_drop_footer_rows`
(handles both "Ultima" and "Última" plus case variations). -/
def footerMarker : String := "ltima actualizaci"

/-- `str.replace(r"\x00", "")` with default `n=1`: drop the first NUL. -/
def replaceFirstNul (s : String) : String :=
  match s.toList.span (fun c => c ≠ Char.ofNat 0) with
  | (pre, []) => String.mk pre
  | (pre, _ :: post) => String.mk (pre ++ post)

/-- `str.replace(r"\.0+$", "")`: drop a trailing dot followed by one or more
zeros (turns "1.0" into "1"). -/
def stripDotZeros (s : String) : String :=
  let rev := s.toList.reverse
  let zs := rev.takeWhile (fun c => c = '0')
  if zs ≠ [] ∧ (rev.drop zs.length).head? = some '.' then
    String.mk ((rev.drop (zs.length + 1)).reverse)
  else s

/-- `str.replace(r"\.00+$", "")`: same with two or more zeros ("extra safety
for weird decimals" in the source); a no-op after `stripDotZeros`. -/
def stripDotZeros2 (s : String) : String :=
  let rev := s.toList.reverse
  let zs := rev.takeWhile (fun c => c = '0')
  if 2 ≤ zs.length ∧ (rev.drop zs.length).head? = some '.' then
    String.mk ((rev.drop (zs.length + 1)).reverse)
  else s

/-! ## Soft casts -/

def digitsToNat (l : List Char) : Nat :=
  l.foldl (fun a c => a * 10 + (c.toNat - 48)) 0

/-- Model of the polars Utf8 → Float64 parse on the decimal literals the feed
produces: optional sign, then digits with at most one decimal point (no
exponent forms, which never occur in the SEPA identity/price columns).
Anything else fails. -/
def parseFloatStr (s : String) : Option Flt :=
  let l := s.toList
  let (sign, l) : Int × List Char :=
    match l with
    | '-' :: rest => (-1, rest)
    | '+' :: rest => (1, rest)
    | _ => (1, l)
  let intPart := l.takeWhile Char.isDigit
  let rest := l.dropWhile Char.isDigit
  match rest with
  | [] =>
    if intPart.isEmpty then none
    else some ⟨sign * (digitsToNat intPart : Int), 0⟩
  | '.' :: frac =>
    if frac.all Char.isDigit ∧ ¬(intPart.isEmpty ∧ frac.isEmpty) then
      some ⟨sign * ((digitsToNat intPart : Int) * (10 ^ frac.length : Nat) +
        (digitsToNat frac : Int)), frac.length⟩
    else none
  | _ => none

/-- `.cast(pl.Float64, strict=False)`: parse strings, pass numerics through,
yield null on failure, never raise. -/
def castFloat (v : Val) : Val :=
  match v with
  | Val.str s => match parseFloatStr s with
    | some f => Val.flt f
    | none => Val.null
  | Val.int n => Val.flt ⟨n, 0⟩
  | Val.flt f => Val.flt f
  | _ => Val.null

/-- `.cast(pl.Int32, strict=False)` applied after a float cast: truncate
toward zero, null when out of the 32-bit range or not numeric. -/
def castInt32 (v : Val) : Val :=
  match v with
  | Val.flt f =>
    let n := fltTrunc f
    if -(2 ^ 31) ≤ n ∧ n < 2 ^ 31 then Val.int n else Val.null
  | Val.int n => if -(2 ^ 31) ≤ n ∧ n < 2 ^ 31 then Val.int n else Val.null
  | _ => Val.null

/-- `.cast(pl.Int64, strict=False)` after a float cast. -/
def castInt64 (v : Val) : Val :=
  match v with
  | Val.flt f =>
    let n := fltTrunc f
    if -(2 ^ 63) ≤ n ∧ n < 2 ^ 63 then Val.int n else Val.null
  | Val.int n => if -(2 ^ 63) ≤ n ∧ n < 2 ^ 63 then Val.int n else Val.null
  | _ => Val.null

/-- `.cast(pl.Float32, strict=False)` on `comercio_version_sepa`
(precision is irrelevant to every property checked here). -/
def castFloat32 (v : Val) : Val := castFloat v

def isNotNull (v : Val) : Bool := decide (v ≠ Val.null)

/-- `.cast(pl.Utf8)`: identity on strings, null on null.  The SEPA frames
read every column as Utf8 (`get_schema_dict`), so float/bool cells never
reach this cast; ints are rendered as decimal strings. -/
def castUtf8 (v : Val) : Val :=
  match v with
  | Val.str s => Val.str s
  | Val.int n => Val.str (toString n)
  | Val.null => Val.null
  | v => v

/-! ## Validator (`validator.py`) -/

/-- Structured models of the validator `logger.warning` calls that carry
counts. -/
inductive LogEv where
  | emptyAfterFooter (which : String)
  | droppedRows (which : String) (n : Nat)
  | unknownTipo (n : Nat)
  | negPrices (n : Nat)
  | orphanSucursales (n : Nat)
  | orphanProductos (n : Nat)
deriving DecidableEq, Repr

def VALID_SUCURSALES_TYPES : List String :=
  ["hipermercado", "supermercado", "autoservicio", "tradicional", "web",
   "mini", "express", "super", "mayorista", "bazar", "hiper",
   "hipermercado local", "autoservicio exprés", "tienda virtual",
   "tienda fisica"]

def requiredComercioCols : List String :=
  ["id_comercio", "id_bandera", "comercio_cuit", "comercio_razon_social",
   "comercio_bandera_nombre", "comercio_bandera_url",
   "comercio_ultima_actualizacion", "comercio_version_sepa"]

def requiredSucursalesCols : List String :=
  ["id_comercio", "id_bandera", "id_sucursal", "sucursales_nombre",
   "sucursales_tipo", "sucursales_localidad", "sucursales_provincia"]

def requiredProductosCols : List String :=
  ["id_comercio", "id_bandera", "id_sucursal", "id_producto",
   "productos_ean", "productos_descripcion", "productos_marca",
   "productos_precio_lista"]

/-- `set(required) - set(df.columns)`, as the list of absent required
columns. -/
def missingCols (req : List String) (df : DF) : List String :=
  req.filter (fun c => !(df.cols.contains c))

/-- The `_drop_footer_rows` mask on one cell: non-null and containing
"ltima actualizaci" case-insensitively. -/
def footerCell (v : Val) : Bool :=
  match v with
  | Val.str s => containsSub (lowerStr s) footerMarker
  | _ => false

/-- `_drop_footer_rows`: filter out footer rows; when everything is filtered
the source rebuilds an empty frame with the same schema, which coincides
with the filtered frame here. -/
def dropFooterRows (df : DF) (firstColumn : String) : DF :=
  if df.rows = [] then df
  else ⟨df.cols, df.rows.filter (fun r => !footerCell (getV r firstColumn))⟩

/-- `str.replace("\x00", "")` over every Utf8 column
(`pl.col(pl.Utf8)`). -/
def nulByteRow (r : Row) : Row :=
  r.map (fun p => (p.1,
    match p.2 with
    | Val.str s => Val.str (replaceFirstNul s)
    | v => v))

/-- The `id_comercio` expression of `validate_comercio`: cast Utf8, strip,
then the two trailing-".0" regex replaces ("1.0" becomes "1"). -/
def comercioIdVal (v : Val) : Val :=
  match castUtf8 v with
  | Val.str s => Val.str (stripDotZeros2 (stripDotZeros (stripChars s)))
  | v => v

/-- The `id_comercio` expression of `validate_sucursales` and
`validate_productos`: cast Utf8 and strip only (no trailing-".0" strip). -/
def stripOnlyVal (v : Val) : Val :=
  match castUtf8 v with
  | Val.str s => Val.str (stripChars s)
  | v => v

/-- The `with_columns` block of `validate_comercio` (the four expressions
all read distinct columns, so the parallel evaluation equals this
sequential one). -/
def comercioTransform (r : Row) : Row :=
  let r := setV r "id_comercio" (comercioIdVal (getV r "id_comercio"))
  let r := setV r "id_bandera" (castInt32 (castFloat (getV r "id_bandera")))
  let r := setV r "comercio_cuit" (castInt64 (castFloat (getV r "comercio_cuit")))
  setV r "comercio_version_sepa" (castFloat32 (getV r "comercio_version_sepa"))

/-- The required-key filter of `validate_comercio`: `id_comercio` non-null
with positive byte length, `id_bandera` non-null. -/
def comercioKeep (r : Row) : Bool :=
  (match getV r "id_comercio" with
   | Val.str s => decide (0 < s.utf8ByteSize)
   | _ => false) && isNotNull (getV r "id_bandera")

/-- `validate_comercio` (lines 130-196 of validator.py). -/
def validate_comercio (df : DF) : Except String (DF × List LogEv) :=
  if missingCols requiredComercioCols df ≠ [] then
    Except.error "comercio.csv missing columns"
  else
    let df1 := dropFooterRows df "id_comercio"
    if df1.rows = [] then
      Except.ok (⟨df1.cols, []⟩, [LogEv.emptyAfterFooter "comercio"])
    else
      let rows2 := (df1.rows.map nulByteRow).map comercioTransform
      let rows3 := rows2.filter comercioKeep
      Except.ok (⟨df1.cols, rows3⟩,
        if rows3.length < rows2.length then
          [LogEv.droppedRows "comercio" (rows2.length - rows3.length)]
        else [])

/-- The columns referenced by the `with_columns` block of
`validate_sucursales`; `pl.col` raises for an absent column, and only
`sucursales_codigo_postal` is not covered by the required-column check. -/
def sucursalesCastCols : List String :=
  ["id_comercio", "id_bandera", "id_sucursal", "sucursales_codigo_postal"]

def sucTransform (r : Row) : Row :=
  let r := setV r "id_comercio" (stripOnlyVal (getV r "id_comercio"))
  let r := setV r "id_bandera" (castInt32 (castFloat (getV r "id_bandera")))
  let r := setV r "id_sucursal" (castInt32 (castFloat (getV r "id_sucursal")))
  setV r "sucursales_codigo_postal"
    (castInt32 (castFloat (getV r "sucursales_codigo_postal")))

/-- Required-field filter of `validate_sucursales`. -/
def sucKeep (r : Row) : Bool :=
  isNotNull (getV r "id_comercio") && isNotNull (getV r "id_bandera") &&
  isNotNull (getV r "id_sucursal") &&
  isNotNull (getV r "sucursales_localidad") &&
  isNotNull (getV r "sucursales_provincia")

/-- The `sucursales_tipo` normalization: cast Utf8, strip, lowercase. -/
def tipoNormVal (v : Val) : Val :=
  match castUtf8 v with
  | Val.str s => Val.str (lowerStr (stripChars s))
  | v => v

def tipoNorm (r : Row) : Row :=
  setV r "sucursales_tipo" (tipoNormVal (getV r "sucursales_tipo"))

/-- Unknown-type mask: non-null and not in `VALID_SUCURSALES_TYPES`. -/
def unknownTipoCell (v : Val) : Bool :=
  match v with
  | Val.str s => !(VALID_SUCURSALES_TYPES.contains s)
  | _ => false

/-- `validate_sucursales` (lines 199-298 of validator.py).
`sucursales_tipo` is required, so the `in df.columns` guard before the
normalization always holds. -/
def validate_sucursales (df : DF) : Except String (DF × List LogEv) :=
  if missingCols requiredSucursalesCols df ≠ [] then
    Except.error "sucursales.csv missing columns"
  else
    let df1 := dropFooterRows df "id_comercio"
    if df1.rows = [] then
      Except.ok (⟨df1.cols, []⟩, [LogEv.emptyAfterFooter "sucursales"])
    else if missingCols sucursalesCastCols df1 ≠ [] then
      Except.error "ColumnNotFoundError sucursales_codigo_postal"
    else
      let rows2 := df1.rows.map sucTransform
      let rows3 := rows2.filter sucKeep
      let log1 :=
        if rows3.length < rows2.length then
          [LogEv.droppedRows "sucursales" (rows2.length - rows3.length)]
        else []
      let rows4 := rows3.map tipoNorm
      let unk :=
        (rows4.filter (fun r => unknownTipoCell (getV r "sucursales_tipo"))).length
      Except.ok (⟨df1.cols, rows4⟩,
        log1 ++ (if 0 < unk then [LogEv.unknownTipo unk] else []))

/-- The `productos_ean` when/then/otherwise chain ('1'/'True'/'true' map to
true, '0'/'False'/'false'/'' to false, anything else — null rows
included — to null). -/
def eanVal (v : Val) : Val :=
  match v with
  | Val.str s =>
    if s = "1" ∨ s = "True" ∨ s = "true" then Val.bool true
    else if s = "0" ∨ s = "False" ∨ s = "false" ∨ s = "" then Val.bool false
    else Val.null
  | _ => Val.null

def prodTransform (r : Row) : Row :=
  let r := setV r "id_comercio" (stripOnlyVal (getV r "id_comercio"))
  let r := setV r "id_bandera" (castInt32 (castFloat (getV r "id_bandera")))
  let r := setV r "id_sucursal" (castInt32 (castFloat (getV r "id_sucursal")))
  let r := setV r "id_producto" (castInt64 (castFloat (getV r "id_producto")))
  let r := setV r "productos_ean" (eanVal (getV r "productos_ean"))
  setV r "productos_precio_lista" (castFloat (getV r "productos_precio_lista"))

/-- Essential-field filter of `validate_productos`. -/
def prodKeep (r : Row) : Bool :=
  isNotNull (getV r "id_comercio") && isNotNull (getV r "id_bandera") &&
  isNotNull (getV r "id_sucursal") && isNotNull (getV r "id_producto") &&
  isNotNull (getV r "productos_precio_lista") &&
  isNotNull (getV r "productos_descripcion")

/-- `productos_precio_lista <= 0` (null compares to null, hence false in a
filter). -/
def nonPositivePrice (v : Val) : Bool :=
  match v with
  | Val.flt f => fltNonPos f
  | Val.int n => decide (n ≤ 0)
  | _ => false

/-- `validate_productos` (lines 301-391 of validator.py).  The non-positive
price rows are only counted and logged; the returned frame keeps them. -/
def validate_productos (df : DF) : Except String (DF × List LogEv) :=
  if missingCols requiredProductosCols df ≠ [] then
    Except.error "productos.csv missing columns"
  else
    let df1 := dropFooterRows df "id_producto"
    if df1.rows = [] then
      Except.ok (⟨df1.cols, []⟩, [LogEv.emptyAfterFooter "productos"])
    else
      let rows2 := df1.rows.map prodTransform
      let rows3 := rows2.filter prodKeep
      let log1 :=
        if rows3.length < rows2.length then
          [LogEv.droppedRows "productos" (rows2.length - rows3.length)]
        else []
      let neg :=
        (rows3.filter
          (fun r => nonPositivePrice (getV r "productos_precio_lista"))).length
      Except.ok (⟨df1.cols, rows3⟩,
        log1 ++ (if 0 < neg then [LogEv.negPrices neg] else []))

/-! ## Referential integrity (`validate_referential_integrity`) -/

/-- The (id_comercio, id_bandera) projection of a row. -/
def key2 (r : Row) : Val × Val :=
  (getV r "id_comercio", getV r "id_bandera")

/-- The (id_comercio, id_bandera, id_sucursal) projection of a row. -/
def key3 (r : Row) : Val × Val × Val :=
  (getV r "id_comercio", getV r "id_bandera", getV r "id_sucursal")

/-- Join-key equality: polars joins never match null keys
(`join_nulls=False`). -/
def nnEq (a b : Val) : Bool := isNotNull a && decide (a = b)

def matchKey2 (a b : Val × Val) : Bool := nnEq a.1 b.1 && nnEq a.2 b.2

def matchKey3 (a b : Val × Val × Val) : Bool :=
  nnEq a.1 b.1 && nnEq a.2.1 b.2.1 && nnEq a.2.2 b.2.2

/-- `select([...]).unique()` of the two-column key. -/
def keys2Of (df : DF) : List (Val × Val) := (df.rows.map key2).dedup

/-- `select([...]).unique()` of the three-column key. -/
def keys3Of (df : DF) : List (Val × Val × Val) := (df.rows.map key3).dedup

/-- First block of `validate_referential_integrity` (lines 407-431):
orphaned sucursales against the comercio keys.  The anti-join counts
distinct orphan keys; the semi-join filter is applied only when orphans
were found and both key sets are non-empty. -/
def refintSucursales (dfC dfS : DF) : DF × List LogEv :=
  let cKeys := keys2Of dfC
  let sKeys := if dfS.rows ≠ [] then keys2Of dfS else []
  if sKeys ≠ [] ∧ cKeys ≠ [] then
    let orphaned := sKeys.filter (fun k => !(cKeys.any (fun c => matchKey2 k c)))
    if orphaned ≠ [] then
      ((⟨dfS.cols,
          dfS.rows.filter (fun r => cKeys.any (fun c => matchKey2 (key2 r) c))⟩ : DF),
       [LogEv.orphanSucursales orphaned.length])
    else (dfS, [])
  else (dfS, [])

/-- Second block of `validate_referential_integrity` (lines 433-477):
orphaned productos against the (possibly filtered) sucursal keys. -/
def refintProductos (dfS1 dfP : DF) : DF × List LogEv :=
  let sFullKeys := if dfS1.rows ≠ [] then keys3Of dfS1 else []
  let pKeys := if dfP.rows ≠ [] then keys3Of dfP else []
  if sFullKeys ≠ [] ∧ pKeys ≠ [] then
    let orphaned := pKeys.filter (fun k => !(sFullKeys.any (fun s => matchKey3 k s)))
    if orphaned ≠ [] then
      ((⟨dfP.cols,
          dfP.rows.filter (fun r => sFullKeys.any (fun s => matchKey3 (key3 r) s))⟩ : DF),
       [LogEv.orphanProductos orphaned.length])
    else (dfP, [])
  else (dfP, [])

/-- `validate_referential_integrity` (lines 393-480 of validator.py): the
two blocks in order, the second seeing the filtered sucursales.  The
function is total — it never raises, whatever the inputs. -/
def validate_referential_integrity (dfC dfS dfP : DF) :
    DF × DF × List LogEv :=
  let s := refintSucursales dfC dfS
  let p := refintProductos s.1 dfP
  (s.1, p.1, s.2 ++ p.2)

section Upsert

variable {R K : Type} [DecidableEq K]

/-- One `INSERT ... ON CONFLICT (key) DO UPDATE` execution: overwrite the
updatable fields of the row holding the record's key, or append the
record. -/
def upsert1 (key : R → K) (upd : R → R → R) (t : List R) (r : R) : List R :=
  if t.any (fun x => decide (key x = key r)) then
    t.map (fun x => if key x = key r then upd r x else x)
  else t ++ [r]

/-- `cur.executemany` over a record list. -/
def upsertAll (key : R → K) (upd : R → R → R) (t : List R) (rs : List R) :
    List R :=
  rs.foldl (upsert1 key upd) t

/-- The per-record row rewrite inside the conflict branch. -/
def updIf (key : R → K) (upd : R → R → R) (r x : R) : R :=
  if key x = key r then upd r x else x

/-- Replaying a whole record list over a single row. -/
def replayRow (key : R → K) (upd : R → R → R) (rs : List R) (x : R) : R :=
  rs.foldl (fun y r => updIf key upd r y) x

/-- The table holds a row with the given key. -/
def KeyMem (key : R → K) (k : K) (t : List R) : Prop := ∃ x ∈ t, key x = k

/-- Rows equal up to the updatable fields: same key and same result under
any overwrite. -/
def RelUpd (key : R → K) (upd : R → R → R) (x y : R) : Prop :=
  key y = key x ∧ ∀ s, upd s y = upd s x

end Upsert

/-! ## Loader state and operations (`loader.py`) -/

structure ComercioRec where
  idComercio : Val
  idBandera : Val
  cuit : Val
  razonSocial : Val
  banderaNombre : Val
  banderaUrl : Val
  versionSepa : Val
deriving DecidableEq, Repr

def keyC (r : ComercioRec) : Val × Val := (r.idComercio, r.idBandera)

/-- `ON CONFLICT (id_comercio, id_bandera) DO UPDATE SET`: only
razon_social, bandera_nombre and bandera_url are overwritten (plus
`updated_at`, a pure audit timestamp that is not modelled); cuit and
version_sepa keep their inserted values. -/
def updC (src dst : ComercioRec) : ComercioRec :=
  { dst with
    razonSocial := src.razonSocial
    banderaNombre := src.banderaNombre
    banderaUrl := src.banderaUrl }

/-- The 7-column projection `df.select([...]).rows()` of
`upsert_comercios`. -/
def comercioRecOfRow (r : Row) : ComercioRec :=
  ⟨getV r "id_comercio", getV r "id_bandera", getV r "comercio_cuit",
   getV r "comercio_razon_social", getV r "comercio_bandera_nombre",
   getV r "comercio_bandera_url", getV r "comercio_version_sepa"⟩

structure SucursalRec where
  idComercio : Val
  idBandera : Val
  idSucursal : Val
  rest : List Val
deriving DecidableEq, Repr

def keyS (r : SucursalRec) : Val × Val × Val :=
  (r.idComercio, r.idBandera, r.idSucursal)

/-- `DO UPDATE SET` of `upsert_sucursales` overwrites every non-key
column. -/
def updS (src dst : SucursalRec) : SucursalRec := { dst with rest := src.rest }

/-- The 18 non-key columns of the sucursales table, in insert order. -/
def sucursalRestCols : List String :=
  ["sucursales_nombre", "sucursales_tipo", "sucursales_calle",
   "sucursales_numero", "sucursales_latitud", "sucursales_longitud",
   "sucursales_observaciones", "sucursales_barrio",
   "sucursales_codigo_postal", "sucursales_localidad",
   "sucursales_provincia", "sucursales_lunes_horario_atencion",
   "sucursales_martes_horario_atencion",
   "sucursales_miercoles_horario_atencion",
   "sucursales_jueves_horario_atencion",
   "sucursales_viernes_horario_atencion",
   "sucursales_sabado_horario_atencion",
   "sucursales_domingo_horario_atencion"]

/-- Row projection of `upsert_sucursales`; the source first adds any
missing optional column with nulls, which `getV` yields for absent
columns. -/
def sucursalRecOfRow (r : Row) : SucursalRec :=
  ⟨getV r "id_comercio", getV r "id_bandera", getV r "id_sucursal",
   sucursalRestCols.map (getV r)⟩

structure ProductoRec where
  idProducto : Val
  ean : Val
  rest : List Val
deriving DecidableEq, Repr

def keyP (r : ProductoRec) : Val := r.idProducto

/-- `DO UPDATE SET` of `upsert_productos_master` overwrites everything
except `productos_ean`. -/
def updP (src dst : ProductoRec) : ProductoRec := { dst with rest := src.rest }

def productoRestCols : List String :=
  ["productos_descripcion", "productos_cantidad_presentacion",
   "productos_unidad_medida_presentacion", "productos_marca",
   "productos_cantidad_referencia", "productos_unidad_medida_referencia"]

def productoRecOfRow (r : Row) : ProductoRec :=
  ⟨getV r "id_producto", getV r "productos_ean",
   productoRestCols.map (getV r)⟩

/-- One fact row as COPYed by `bulk_load_precios` (12 selected columns plus
the `scraped_at` run tag and the `fecha_vigencia` date). -/
structure PrecioRow where
  idComercio : Val
  idBandera : Val
  idSucursal : Val
  idProducto : Val
  precioLista : Val
  rest : List Val
  scrapedAt : Nat
  fechaVigencia : Nat
deriving DecidableEq, Repr

def precioRestCols : List String :=
  ["productos_precio_referencia", "productos_precio_unitario_promo1",
   "productos_leyenda_promo1", "productos_precio_unitario_promo2",
   "productos_leyenda_promo2", "productos_descripcion", "productos_marca"]

def precioRowOfRow (sc d : Nat) (r : Row) : PrecioRow :=
  ⟨getV r "id_comercio", getV r "id_bandera", getV r "id_sucursal",
   getV r "id_producto", getV r "productos_precio_lista",
   precioRestCols.map (getV r), sc, d⟩

/-- The relational state the loader touches: the three dimension tables and
the partitioned `precios` fact table (dates and the `scraped_at` timestamp
are opaque numbers; the `updated_at` audit columns are not modelled). -/
structure DBState where
  comercios : List ComercioRec
  sucursales : List SucursalRec
  productosMaster : List ProductoRec
  precios : List (Nat × List PrecioRow)
deriving DecidableEq, Repr

/-- The rows of the partition for a date (empty when absent). -/
def partRows (d : Nat) : List (Nat × List PrecioRow) → List PrecioRow
  | [] => []
  | p :: ps => if p.1 = d then p.2 else partRows d ps

/-- `prepare_precios_partition`: `create_precios_partition` (create if
absent) followed by `TRUNCATE`; either way the partition for the date ends
up empty and every other partition is untouched. -/
def prepare_precios_partition (d : Nat) (st : DBState) : DBState :=
  if st.precios.any (fun p => p.1 = d) then
    { st with precios := st.precios.map (fun p => if p.1 = d then (d, []) else p) }
  else
    { st with precios := st.precios ++ [(d, [])] }

def upsert_comercios (df : DF) (st : DBState) : DBState :=
  { st with comercios :=
      upsertAll keyC updC st.comercios (df.rows.map comercioRecOfRow) }

/-- `upsert_sucursales`: the empty frame short-circuits to a no-op. -/
def upsert_sucursales (df : DF) (st : DBState) : DBState :=
  if df.rows = [] then st
  else
    { st with sucursales :=
        upsertAll keyS updS st.sucursales (df.rows.map sucursalRecOfRow) }

/-- `unique(subset=["id_producto"])`: one representative per product id
(keep-first; the engine keeps an arbitrary one, and both runs of the
deterministic computation keep the same one). -/
def dedupByIdProducto (rs : List ProductoRec) : List ProductoRec :=
  rs.foldl
    (fun acc r =>
      if acc.any (fun x => decide (x.idProducto = r.idProducto)) then acc
      else acc ++ [r]) []

def upsert_productos_master (df : DF) (st : DBState) : DBState :=
  if df.rows = [] then st
  else
    let recs := dedupByIdProducto (df.rows.map productoRecOfRow)
    { st with productosMaster := upsertAll keyP updP st.productosMaster recs }

/-- `bulk_load_precios`: COPY appends every row of the frame — with no
price filter of any kind — into the partition of the date.  The pipeline
prepares the partition before any bulk load, so the date key is present
whenever this runs. -/
def bulk_load_precios (df : DF) (sc d : Nat) (st : DBState) : DBState :=
  let appendHere := fun (p : Nat × List PrecioRow) =>
    if p.1 = d then (p.1, p.2 ++ df.rows.map (precioRowOfRow sc d)) else p
  { st with precios := st.precios.map appendHere }

/-! ## Pipeline orchestration (`pipeline.py`) -/

/-- Observable actions of `process_daily_data`, used to state ordering and
isolation properties.  Chunk ordinals are 1-based, as in the log
messages. -/
inductive Ev where
  | upsertComerciosEv
  | upsertSucursalesEv
  | preparePartitionEv (d : Nat)
  | masterUpsertEv (i : Nat)
  | bulkLoadEv (i : Nat) (n : Nat)
  | parquetAppendEv (i : Nat)
  | chunkFailEv (i : Nat) (msg : String)
deriving DecidableEq, Repr

def isChunkEv : Ev → Bool
  | Ev.masterUpsertEv _ => true
  | Ev.bulkLoadEv _ _ => true
  | Ev.parquetAppendEv _ => true
  | Ev.chunkFailEv _ _ => true
  | _ => false

instance {e a : Type} [DecidableEq e] [DecidableEq a] :
    DecidableEq (Except e a) := fun x y =>
  match x, y with
  | Except.ok u, Except.ok v =>
    if h : u = v then Decidable.isTrue (by rw [h])
    else Decidable.isFalse (fun hc => h (by injection hc))
  | Except.error u, Except.error v =>
    if h : u = v then Decidable.isTrue (by rw [h])
    else Decidable.isFalse (fun hc => h (by injection hc))
  | Except.ok _, Except.error _ => Decidable.isFalse (fun hc => by injection hc)
  | Except.error _, Except.ok _ => Decidable.isFalse (fun hc => by injection hc)

/-- One archive's product chunk: the outcome of `pl.read_csv` plus injected
failure flags for the three externally-failable steps (database upsert,
COPY, parquet append). -/
structure ChunkInput where
  readResult : Except String DF
  upsertFault : Bool
  loadFault : Bool
  parquetFault : Bool
deriving DecidableEq, Repr

/-- The whole run's inputs: dimension read outcomes per archive, product
chunks, and injected failure flags for the two dimension upserts and the
partition preparation. -/
structure PipeInput where
  comercioReads : List (Except String DF)
  sucursalReads : List (Except String DF)
  chunks : List ChunkInput
  ucFault : Bool
  usFault : Bool
  prepFault : Bool
deriving DecidableEq, Repr

/-- Failed reads are logged and skipped (`try/except` around each
`pl.read_csv`). -/
def collectOks (l : List (Except String DF)) : List DF :=
  l.filterMap (fun e => match e with
    | Except.ok df => some df
    | Except.error _ => none)

/-- `pl.concat`: raises on an empty input list or mismatched schemas. -/
def concatDFs (dfs : List DF) : Except String DF :=
  match dfs with
  | [] => Except.error "concat with empty input"
  | d :: rest =>
    if rest.all (fun x => decide (x.cols = d.cols)) then
      Except.ok ⟨d.cols, d.rows ++ (rest.map DF.rows).flatten⟩
    else Except.error "concat schema mismatch"

/-- `.unique()` over full rows. -/
def uniqueRows (df : DF) : DF := ⟨df.cols, df.rows.dedup⟩

/-- The 17 columns of `get_schema_dict("productos")`, for the empty
products frame passed during phase 1. -/
def productosSchemaCols : List String :=
  ["id_comercio", "id_bandera", "id_sucursal", "id_producto",
   "productos_ean", "productos_descripcion",
   "productos_cantidad_presentacion",
   "productos_unidad_medida_presentacion", "productos_marca",
   "productos_precio_lista", "productos_precio_referencia",
   "productos_cantidad_referencia", "productos_unidad_medida_referencia",
   "productos_precio_unitario_promo1", "productos_leyenda_promo1",
   "productos_precio_unitario_promo2", "productos_leyenda_promo2"]

/-- Phase 1 of `process_daily_data`: concatenate the surviving dimension
reads, dedupe, validate, and clean orphaned sucursales against the
comercios (an empty products frame is passed, so only the sucursales side
is filtered).  Any failure here propagates. -/
def phase1 (inp : PipeInput) : Except String (DF × DF) := do
  let dfC0 ← concatDFs (collectOks inp.comercioReads)
  let dfS0 ← concatDFs (collectOks inp.sucursalReads)
  let (dfC, _) ← validate_comercio (uniqueRows dfC0)
  let (dfS1, _) ← validate_sucursales (uniqueRows dfS0)
  let dfS := (validate_referential_integrity dfC dfS1 ⟨productosSchemaCols, []⟩).1
  Except.ok (dfC, dfS)

/-- The tail of a chunk iteration after schema validation: referential
filtering, master upsert, bulk price load and parquet append, with the
injected faults of the three externally-failable steps. -/
def processChunkVal (dfC dfS : DF) (sc d : Nat) (st : DBState) (idx : Nat)
    (c : ChunkInput) : Except String (DF × List LogEv) → DBState × Nat × List Ev
  | Except.error e => (st, 0, [Ev.chunkFailEv (idx + 1) e])
  | Except.ok (df1, _) =>
    let dfP := (validate_referential_integrity dfC dfS df1).2.1
    if 0 < dfP.rows.length then
      if c.upsertFault then
        (st, 0, [Ev.chunkFailEv (idx + 1) "upsert_productos_master raised"])
      else
        let st1 := upsert_productos_master dfP st
        if c.loadFault then
          (st1, 0, [Ev.masterUpsertEv (idx + 1),
                    Ev.chunkFailEv (idx + 1) "bulk_load_precios raised"])
        else
          let st2 := bulk_load_precios dfP sc d st1
          if c.parquetFault then
            (st2, 0, [Ev.masterUpsertEv (idx + 1),
                      Ev.bulkLoadEv (idx + 1) dfP.rows.length,
                      Ev.chunkFailEv (idx + 1) "append_to_parquet raised"])
          else
            (st2, dfP.rows.length,
             [Ev.masterUpsertEv (idx + 1),
              Ev.bulkLoadEv (idx + 1) dfP.rows.length,
              Ev.parquetAppendEv (idx + 1)])
    else (st, 0, [])

/-- A chunk iteration from the read outcome on. -/
def processChunkRead (dfC dfS : DF) (sc d : Nat) (st : DBState) (idx : Nat)
    (c : ChunkInput) : Except String DF → DBState × Nat × List Ev
  | Except.error e => (st, 0, [Ev.chunkFailEv (idx + 1) e])
  | Except.ok df0 => processChunkVal dfC dfS sc d st idx c (validate_productos df0)

/-- One iteration of the phase-3 chunk loop (`idx` is 0-based; the log
carries `idx + 1`).  The returned state keeps whatever the chunk committed
before a failure; the returned count feeds the running total and is zero
unless every step of the chunk succeeded. -/
def processChunk (dfC dfS : DF) (sc d : Nat) (st : DBState) (idx : Nat)
    (c : ChunkInput) : DBState × Nat × List Ev :=
  processChunkRead dfC dfS sc d st idx c c.readResult

/-- The phase-3 loop: every chunk is processed; a chunk failure only
affects its own contribution. -/
def runChunks (dfC dfS : DF) (sc d : Nat) :
    DBState → Nat → List ChunkInput → DBState × Nat × List Ev
  | st, _, [] => (st, 0, [])
  | st, idx, c :: cs =>
    let r1 := processChunk dfC dfS sc d st idx c
    let r2 := runChunks dfC dfS sc d r1.1 (idx + 1) cs
    (r2.1, r1.2.1 + r2.2.1, r1.2.2 ++ r2.2.2)

/-- Phases 2 and 3 of `process_daily_data`, once the validated dimension
frames exist: the two dimension upserts and the partition preparation
(whose injected faults propagate), then the chunk loop. -/
def processDims (inp : PipeInput) (sc d : Nat) (st : DBState) (dfC dfS : DF) :
    DBState × List Ev × Except String Nat :=
  if inp.ucFault then (st, [], Except.error "upsert_comercios raised")
  else
    let st1 := upsert_comercios dfC st
    if inp.usFault then
      (st1, [Ev.upsertComerciosEv], Except.error "upsert_sucursales raised")
    else
      let st2 := upsert_sucursales dfS st1
      if inp.prepFault then
        (st2, [Ev.upsertComerciosEv, Ev.upsertSucursalesEv],
         Except.error "prepare_precios_partition raised")
      else
        let st3 := prepare_precios_partition d st2
        let r := runChunks dfC dfS sc d st3 0 inp.chunks
        (r.1,
         [Ev.upsertComerciosEv, Ev.upsertSucursalesEv,
          Ev.preparePartitionEv d] ++ r.2.2,
         Except.ok r.2.1)

/-- Dispatch on the phase-1 outcome: a phase-1 failure propagates with the
state untouched. -/
def processPhase1 (inp : PipeInput) (sc d : Nat) (st : DBState) :
    Except String (DF × DF) → DBState × List Ev × Except String Nat
  | Except.error e => (st, [], Except.error e)
  | Except.ok (dfC, dfS) => processDims inp sc d st dfC dfS

/-- `process_daily_data` (pipeline.py): phase 1 loads and validates
dimensions (errors propagate), the dimension upserts and the partition
preparation run next (errors propagate), and phase 3 processes the product
chunks with per-chunk isolation.  Returns the final state, the event
trace, and either the propagated error or the reported total of fact rows
loaded. -/
def process_daily_data (inp : PipeInput) (sc d : Nat) (st : DBState) :
    DBState × List Ev × Except String Nat :=
  processPhase1 inp sc d st (phase1 inp)

/-! ## Concrete frames used by witnesses and counterexamples -/

/-- A comercio frame with one data row exercising the soft casts
("1.0" ids, an unparsable cuit) and one trailer row. -/
def wComercioDF : DF :=
  ⟨requiredComercioCols,
   [[("id_comercio", Val.str "1.0"), ("id_bandera", Val.str "1.0"),
     ("comercio_cuit", Val.str "abc"), ("comercio_razon_social", Val.str "r"),
     ("comercio_bandera_nombre", Val.str "n"), ("comercio_bandera_url", Val.str "u"),
     ("comercio_ultima_actualizacion", Val.str "2024"),
     ("comercio_version_sepa", Val.str "1.0")],
    [("id_comercio", Val.str "Ultima actualizacion: ayer"), ("id_bandera", Val.str "9"),
     ("comercio_cuit", Val.str "30"), ("comercio_razon_social", Val.str "x"),
     ("comercio_bandera_nombre", Val.str "x"), ("comercio_bandera_url", Val.str "x"),
     ("comercio_ultima_actualizacion", Val.str "x"),
     ("comercio_version_sepa", Val.str "1")]]⟩

/-- Its validated output: "1.0" became "1", cuit "abc" became null with the
row kept, the trailer row is gone. -/
def wComercioOut : DF :=
  ⟨requiredComercioCols,
   [[("id_comercio", Val.str "1"), ("id_bandera", Val.int 1),
     ("comercio_cuit", Val.null), ("comercio_razon_social", Val.str "r"),
     ("comercio_bandera_nombre", Val.str "n"), ("comercio_bandera_url", Val.str "u"),
     ("comercio_ultima_actualizacion", Val.str "2024"),
     ("comercio_version_sepa", Val.flt ⟨10, 1⟩)]]⟩

/-- A sucursales frame with one full data row ("1.0" ids) and one row with a
null `id_comercio` that must be dropped. -/
def wSucursalesDF : DF :=
  ⟨requiredSucursalesCols ++ ["sucursales_codigo_postal"],
   [[("id_comercio", Val.str "1.0"), ("id_bandera", Val.str "1.0"),
     ("id_sucursal", Val.str "3.0"), ("sucursales_nombre", Val.str "s"),
     ("sucursales_tipo", Val.str " Web "), ("sucursales_localidad", Val.str "l"),
     ("sucursales_provincia", Val.str "p"), ("sucursales_codigo_postal", Val.str "100")],
    [("id_comercio", Val.null), ("id_bandera", Val.str "2"),
     ("id_sucursal", Val.str "4"), ("sucursales_nombre", Val.str "t"),
     ("sucursales_tipo", Val.str "web"), ("sucursales_localidad", Val.str "l2"),
     ("sucursales_provincia", Val.str "p2"), ("sucursales_codigo_postal", Val.str "101")]]⟩

/-- Its validated output: `id_comercio` keeps the literal "1.0" (only a
trim, no trailing-".0" strip), the null-keyed row was dropped and
logged. -/
def wSucursalesOut : DF :=
  ⟨requiredSucursalesCols ++ ["sucursales_codigo_postal"],
   [[("id_comercio", Val.str "1.0"), ("id_bandera", Val.int 1),
     ("id_sucursal", Val.int 3), ("sucursales_nombre", Val.str "s"),
     ("sucursales_tipo", Val.str "web"), ("sucursales_localidad", Val.str "l"),
     ("sucursales_provincia", Val.str "p"), ("sucursales_codigo_postal", Val.int 100)]]⟩

/-- A productos frame with a non-positive-price data row and a trailer row
(marker in `id_producto`). -/
def wProductosDF : DF :=
  ⟨requiredProductosCols,
   [[("id_comercio", Val.str "2.0"), ("id_bandera", Val.str "1"),
     ("id_sucursal", Val.str "3"), ("id_producto", Val.str "4.0"),
     ("productos_ean", Val.str "1"), ("productos_descripcion", Val.str "d"),
     ("productos_marca", Val.str "m"), ("productos_precio_lista", Val.str "-5")],
    [("id_comercio", Val.str "Ultima actualizacion"), ("id_bandera", Val.str "1"),
     ("id_sucursal", Val.str "3"), ("id_producto", Val.str "ultima ACTUALIZACIon hoy"),
     ("productos_ean", Val.str "0"), ("productos_descripcion", Val.str "e"),
     ("productos_marca", Val.str "m2"), ("productos_precio_lista", Val.str "7")]]⟩

/-- Its validated output: the trailer row is gone and the price −5 row is
retained (only logged). -/
def wProductosOut : DF :=
  ⟨requiredProductosCols,
   [[("id_comercio", Val.str "2.0"), ("id_bandera", Val.int 1),
     ("id_sucursal", Val.int 3), ("id_producto", Val.int 4),
     ("productos_ean", Val.bool true), ("productos_descripcion", Val.str "d"),
     ("productos_marca", Val.str "m"), ("productos_precio_lista", Val.flt ⟨-5, 0⟩)]]⟩

/-! ## Pipeline-consistent concrete frames (matching keys across entities) -/

def pComercioDF : DF :=
  ⟨requiredComercioCols,
   [[("id_comercio", Val.str "1"), ("id_bandera", Val.str "1"),
     ("comercio_cuit", Val.str "30"), ("comercio_razon_social", Val.str "r"),
     ("comercio_bandera_nombre", Val.str "n"), ("comercio_bandera_url", Val.str "u"),
     ("comercio_ultima_actualizacion", Val.str "2024"),
     ("comercio_version_sepa", Val.str "1.0")]]⟩

def pComercioOut : DF :=
  ⟨requiredComercioCols,
   [[("id_comercio", Val.str "1"), ("id_bandera", Val.int 1),
     ("comercio_cuit", Val.int 30), ("comercio_razon_social", Val.str "r"),
     ("comercio_bandera_nombre", Val.str "n"), ("comercio_bandera_url", Val.str "u"),
     ("comercio_ultima_actualizacion", Val.str "2024"),
     ("comercio_version_sepa", Val.flt ⟨10, 1⟩)]]⟩

def pSucursalesDF : DF :=
  ⟨requiredSucursalesCols ++ ["sucursales_codigo_postal"],
   [[("id_comercio", Val.str "1"), ("id_bandera", Val.str "1"),
     ("id_sucursal", Val.str "2"), ("sucursales_nombre", Val.str "s"),
     ("sucursales_tipo", Val.str "web"), ("sucursales_localidad", Val.str "l"),
     ("sucursales_provincia", Val.str "p"), ("sucursales_codigo_postal", Val.str "100")]]⟩

def pSucursalesOut : DF :=
  ⟨requiredSucursalesCols ++ ["sucursales_codigo_postal"],
   [[("id_comercio", Val.str "1"), ("id_bandera", Val.int 1),
     ("id_sucursal", Val.int 2), ("sucursales_nombre", Val.str "s"),
     ("sucursales_tipo", Val.str "web"), ("sucursales_localidad", Val.str "l"),
     ("sucursales_provincia", Val.str "p"), ("sucursales_codigo_postal", Val.int 100)]]⟩

/-- Two product rows with keys matching the sucursal above; the first has
list price −5, the second 10.5. -/
def pProductosDF : DF :=
  ⟨requiredProductosCols,
   [[("id_comercio", Val.str "1"), ("id_bandera", Val.str "1"),
     ("id_sucursal", Val.str "2"), ("id_producto", Val.str "7"),
     ("productos_ean", Val.str "1"), ("productos_descripcion", Val.str "d"),
     ("productos_marca", Val.str "m"), ("productos_precio_lista", Val.str "-5")],
    [("id_comercio", Val.str "1"), ("id_bandera", Val.str "1"),
     ("id_sucursal", Val.str "2"), ("id_producto", Val.str "8"),
     ("productos_ean", Val.str "0"), ("productos_descripcion", Val.str "e"),
     ("productos_marca", Val.str "n"), ("productos_precio_lista", Val.str "10.5")]]⟩

def pProductosOut : DF :=
  ⟨requiredProductosCols,
   [[("id_comercio", Val.str "1"), ("id_bandera", Val.int 1),
     ("id_sucursal", Val.int 2), ("id_producto", Val.int 7),
     ("productos_ean", Val.bool true), ("productos_descripcion", Val.str "d"),
     ("productos_marca", Val.str "m"), ("productos_precio_lista", Val.flt ⟨-5, 0⟩)],
    [("id_comercio", Val.str "1"), ("id_bandera", Val.int 1),
     ("id_sucursal", Val.int 2), ("id_producto", Val.int 8),
     ("productos_ean", Val.bool false), ("productos_descripcion", Val.str "e"),
     ("productos_marca", Val.str "n"), ("productos_precio_lista", Val.flt ⟨105, 1⟩)]]⟩

/-- A sucursales frame with exactly the required columns (a strict superset
check passes) and one data row — so the footer-removal branch is not
taken. -/
def wSucNoCPDF : DF :=
  ⟨requiredSucursalesCols,
   [[("id_comercio", Val.str "1"), ("id_bandera", Val.str "1"),
     ("id_sucursal", Val.str "2"), ("sucursales_nombre", Val.str "s"),
     ("sucursales_tipo", Val.str "web"), ("sucursales_localidad", Val.str "l"),
     ("sucursales_provincia", Val.str "p")]]⟩

/-! ## Chunk characterizations (state-independent views of one loop
iteration, used to reason about totals, master upserts and fact rows) -/

def chunkRecsVal (dfC dfS : DF) (c : ChunkInput) :
    Except String (DF × List LogEv) → List ProductoRec
  | Except.error _ => []
  | Except.ok (df1, _) =>
    let dfP := (validate_referential_integrity dfC dfS df1).2.1
    if 0 < dfP.rows.length then
      if c.upsertFault then []
      else dedupByIdProducto (dfP.rows.map productoRecOfRow)
    else []

def chunkRecsRead (dfC dfS : DF) (c : ChunkInput) :
    Except String DF → List ProductoRec
  | Except.error _ => []
  | Except.ok df0 => chunkRecsVal dfC dfS c (validate_productos df0)

/-- The productos_master records a chunk contributes (empty when the chunk
fails before its master upsert). -/
def chunkRecs (dfC dfS : DF) (c : ChunkInput) : List ProductoRec :=
  chunkRecsRead dfC dfS c c.readResult

def chunkLoadRowsVal (dfC dfS : DF) (sc d : Nat) (c : ChunkInput) :
    Except String (DF × List LogEv) → List PrecioRow
  | Except.error _ => []
  | Except.ok (df1, _) =>
    let dfP := (validate_referential_integrity dfC dfS df1).2.1
    if 0 < dfP.rows.length then
      if c.upsertFault then []
      else if c.loadFault then []
      else dfP.rows.map (precioRowOfRow sc d)
    else []

def chunkLoadRowsRead (dfC dfS : DF) (sc d : Nat) (c : ChunkInput) :
    Except String DF → List PrecioRow
  | Except.error _ => []
  | Except.ok df0 => chunkLoadRowsVal dfC dfS sc d c (validate_productos df0)

/-- The fact rows a chunk commits via COPY (empty when it fails before the
bulk load). -/
def chunkLoadRows (dfC dfS : DF) (sc d : Nat) (c : ChunkInput) : List PrecioRow :=
  chunkLoadRowsRead dfC dfS sc d c c.readResult

def chunkCountVal (dfC dfS : DF) (c : ChunkInput) :
    Except String (DF × List LogEv) → Nat
  | Except.error _ => 0
  | Except.ok (df1, _) =>
    let dfP := (validate_referential_integrity dfC dfS df1).2.1
    if 0 < dfP.rows.length then
      if c.upsertFault then 0
      else if c.loadFault then 0
      else if c.parquetFault then 0
      else dfP.rows.length
    else 0

def chunkCountRead (dfC dfS : DF) (c : ChunkInput) : Except String DF → Nat
  | Except.error _ => 0
  | Except.ok df0 => chunkCountVal dfC dfS c (validate_productos df0)

/-- The chunk's contribution to the reported running total: its row count
when every step succeeded, zero otherwise. -/
def chunkCount (dfC dfS : DF) (c : ChunkInput) : Nat :=
  chunkCountRead dfC dfS c c.readResult

def chunkFailMsgVal (dfC dfS : DF) (c : ChunkInput) :
    Except String (DF × List LogEv) → Option String
  | Except.error e => some e
  | Except.ok (df1, _) =>
    let dfP := (validate_referential_integrity dfC dfS df1).2.1
    if 0 < dfP.rows.length then
      if c.upsertFault then some "upsert_productos_master raised"
      else if c.loadFault then some "bulk_load_precios raised"
      else if c.parquetFault then some "append_to_parquet raised"
      else none
    else none

def chunkFailMsgRead (dfC dfS : DF) (c : ChunkInput) :
    Except String DF → Option String
  | Except.error e => some e
  | Except.ok df0 => chunkFailMsgVal dfC dfS c (validate_productos df0)

/-- The failure message of a chunk, when any of its steps fails. -/
def chunkFailMsg (dfC dfS : DF) (c : ChunkInput) : Option String :=
  chunkFailMsgRead dfC dfS c c.readResult

/-- The empty initial database. -/
def dbEmpty : DBState := ⟨[], [], [], []⟩

/-- A run with one fully-successful product chunk and one whose read
fails. -/
def c3Inp : PipeInput :=
  ⟨[Except.ok pComercioDF], [Except.ok pSucursalesDF],
   [⟨Except.ok pProductosDF, false, false, false⟩,
    ⟨Except.error "malformed csv", false, false, false⟩],
   false, false, false⟩

/-- A run whose partition preparation fails. -/
def c4Inp : PipeInput :=
  ⟨[Except.ok pComercioDF], [Except.ok pSucursalesDF],
   [⟨Except.ok pProductosDF, false, false, false⟩], false, false, true⟩

/-! ## C9 — non-positive prices: retained by validation but never excluded
from the fact load -/

/-- A fault-free run whose single product chunk carries a row with list
price −5 (and a second row with price 10.5). -/
def c9Inp : PipeInput :=
  ⟨[Except.ok pComercioDF], [Except.ok pSucursalesDF],
   [⟨Except.ok pProductosDF, false, false, false⟩], false, false, false⟩

section Upsert

variable {R K : Type} [DecidableEq K]

theorem upsertAll_append (key : R → K) (upd : R → R → R) (t : List R)
    (rs rs' : List R) :
    upsertAll key upd t (rs ++ rs') = upsertAll key upd (upsertAll key upd t rs) rs' :=
  List.foldl_append _ _ _ _

variable {key : R → K} {upd : R → R → R}

theorem key_updIf (hk : ∀ s x, key (upd s x) = key x) (r x : R) :
    key (updIf key upd r x) = key x := by
  unfold updIf
  by_cases h : key x = key r
  · rw [if_pos h]; exact hk r x
  · rw [if_neg h]

theorem upsert1_eq_map (t : List R) (r : R) (h : KeyMem key (key r) t) :
    upsert1 key upd t r = t.map (updIf key upd r) := by
  unfold upsert1
  rw [if_pos]
  · rfl
  · obtain ⟨x, hx, hkx⟩ := h
    exact List.any_eq_true.mpr ⟨x, hx, decide_eq_true hkx⟩

theorem keyMem_map_updIf (hk : ∀ s x, key (upd s x) = key x) (k : K)
    (t : List R) (r : R) (h : KeyMem key k t) :
    KeyMem key k (t.map (updIf key upd r)) := by
  obtain ⟨x, hx, hkx⟩ := h
  exact ⟨updIf key upd r x, List.mem_map_of_mem _ hx, by rw [key_updIf hk, hkx]⟩

theorem keyMem_upsert1 (hk : ∀ s x, key (upd s x) = key x) (k : K)
    (t : List R) (r : R) (h : KeyMem key k t) :
    KeyMem key k (upsert1 key upd t r) := by
  unfold upsert1
  by_cases hc : t.any (fun x => decide (key x = key r)) = true
  · rw [if_pos hc]; exact keyMem_map_updIf hk k t r h
  · rw [if_neg hc]
    obtain ⟨x, hx, hkx⟩ := h
    exact ⟨x, List.mem_append_left _ hx, hkx⟩

theorem keyMem_upsert1_self (hk : ∀ s x, key (upd s x) = key x)
    (t : List R) (r : R) : KeyMem key (key r) (upsert1 key upd t r) := by
  unfold upsert1
  by_cases hc : t.any (fun x => decide (key x = key r)) = true
  · rw [if_pos hc]
    obtain ⟨x, hx, hkx⟩ := List.any_eq_true.mp hc
    exact keyMem_map_updIf hk _ t r ⟨x, hx, of_decide_eq_true hkx⟩
  · rw [if_neg hc]
    exact ⟨r, List.mem_append_right _ (List.mem_singleton_self r), rfl⟩

theorem keyMem_upsertAll (hk : ∀ s x, key (upd s x) = key x) (k : K)
    (t : List R) (rs : List R) (h : KeyMem key k t) :
    KeyMem key k (upsertAll key upd t rs) := by
  induction rs generalizing t with
  | nil => exact h
  | cons r rs ih => exact ih _ (keyMem_upsert1 hk k t r h)

theorem keyMem_upsertAll_of_mem (hk : ∀ s x, key (upd s x) = key x)
    (t : List R) (rs : List R) (r : R) (h : r ∈ rs) :
    KeyMem key (key r) (upsertAll key upd t rs) := by
  induction rs generalizing t with
  | nil => cases h
  | cons s rs ih =>
    rcases List.mem_cons.mp h with h | h
    · rw [h]
      show KeyMem key (key s) (upsertAll key upd (upsert1 key upd t s) rs)
      exact keyMem_upsertAll hk (key s) (upsert1 key upd t s) rs
        (keyMem_upsert1_self hk t s)
    · exact ih _ h

theorem upsertAll_eq_map (hk : ∀ s x, key (upd s x) = key x)
    (t : List R) (rs : List R) (h : ∀ r ∈ rs, KeyMem key (key r) t) :
    upsertAll key upd t rs = t.map (replayRow key upd rs) := by
  induction rs generalizing t with
  | nil =>
    show t = t.map id
    rw [List.map_id]
  | cons r rs ih =>
    show upsertAll key upd (upsert1 key upd t r) rs = _
    rw [upsert1_eq_map t r (h r (List.mem_cons_self r rs)),
        ih (t.map (updIf key upd r))
          (fun s hs => keyMem_map_updIf hk _ t r (h s (List.mem_cons_of_mem r hs))),
        List.map_map]
    rfl

theorem replayRow_of_not_key (rs : List R) (x : R)
    (h : ∀ r ∈ rs, key r ≠ key x) : replayRow key upd rs x = x := by
  induction rs with
  | nil => rfl
  | cons r rs ih =>
    show replayRow key upd rs (updIf key upd r x) = x
    have : updIf key upd r x = x := by
      unfold updIf
      rw [if_neg (fun hc => h r (List.mem_cons_self r rs) hc.symm)]
    rw [this]
    exact ih (fun s hs => h s (List.mem_cons_of_mem r hs))

theorem mem_upsert1_untouched (hk : ∀ s x, key (upd s x) = key x)
    (t : List R) (r x : R) (hx : x ∈ upsert1 key upd t r)
    (hr : key r ≠ key x) : x ∈ t := by
  unfold upsert1 at hx
  by_cases hc : t.any (fun y => decide (key y = key r)) = true
  · rw [if_pos hc] at hx
    obtain ⟨x0, hx0, hmap⟩ := List.mem_map.mp hx
    by_cases hk0 : key x0 = key r
    · exfalso
      rw [if_pos hk0] at hmap
      exact hr (by rw [← hmap, hk, hk0])
    · rw [if_neg hk0] at hmap
      exact hmap ▸ hx0
  · rw [if_neg hc] at hx
    rcases List.mem_append.mp hx with h1 | h1
    · exact h1
    · exact absurd ((List.mem_singleton.mp h1) ▸ rfl) hr

theorem mem_upsertAll_untouched (hk : ∀ s x, key (upd s x) = key x)
    (t : List R) (rs : List R) (x : R)
    (hx : x ∈ upsertAll key upd t rs) (h : ∀ r ∈ rs, key r ≠ key x) :
    x ∈ t := by
  induction rs generalizing t with
  | nil => exact hx
  | cons r rs ih =>
    exact mem_upsert1_untouched hk t r x
      (ih (upsert1 key upd t r) hx (fun s hs => h s (List.mem_cons_of_mem r hs)))
      (h r (List.mem_cons_self r rs))

omit [DecidableEq K] in
theorem relUpd_refl (x : R) : RelUpd key upd x x := ⟨rfl, fun _ => rfl⟩

theorem relUpd_updIf (hk : ∀ s x, key (upd s x) = key x)
    (hover : ∀ s s' x, upd s (upd s' x) = upd s x)
    (x y r : R) (h : RelUpd key upd x y) :
    RelUpd key upd x (updIf key upd r y) := by
  constructor
  · rw [key_updIf hk]; exact h.1
  · intro s
    unfold updIf
    by_cases hc : key y = key r
    · rw [if_pos hc, hover, h.2]
    · rw [if_neg hc]; exact h.2 s

/-- Every row of an upserted table is a fixed point of replaying the very
record list that produced it (up to `RelUpd`): the last record with the
row's key determined its updatable fields, and replaying restores them. -/
theorem replayRow_stable (hk : ∀ s x, key (upd s x) = key x)
    (hover : ∀ s s' x, upd s (upd s' x) = upd s x)
    (hself : ∀ s, upd s s = s)
    (rs : List R) (t : List R) (x : R)
    (hx : x ∈ upsertAll key upd t rs)
    (hkey : ∃ r ∈ rs, key r = key x)
    (y : R) (hy : RelUpd key upd x y) :
    replayRow key upd rs y = x := by
  induction rs generalizing t y with
  | nil =>
    obtain ⟨r, hr, _⟩ := hkey
    cases hr
  | cons s rs ih =>
    show replayRow key upd rs (updIf key upd s y) = x
    by_cases hmem : ∃ r ∈ rs, key r = key x
    · exact ih (upsert1 key upd t s) hx hmem (updIf key upd s y)
        (relUpd_updIf hk hover x y s hy)
    · have hks : key s = key x := by
        obtain ⟨r, hr, hkr⟩ := hkey
        rcases List.mem_cons.mp hr with h1 | h1
        · rw [← h1]; exact hkr
        · exact absurd ⟨r, h1, hkr⟩ hmem
      have hxin : x ∈ upsert1 key upd t s :=
        mem_upsertAll_untouched hk _ rs x hx (fun r hr hc => hmem ⟨r, hr, hc⟩)
      have hyx : key y = key x := hy.1
      have h1 : updIf key upd s y = upd s y := by
        unfold updIf
        rw [if_pos (by rw [hyx, ← hks])]
      rw [h1]
      have h2 : replayRow key upd rs (upd s y) = upd s y := by
        apply replayRow_of_not_key
        intro r hr hc
        exact hmem ⟨r, hr, by rw [hc, hk, hyx]⟩
      rw [h2, hy.2 s]
      unfold upsert1 at hxin
      by_cases hc : t.any (fun z => decide (key z = key s)) = true
      · rw [if_pos hc] at hxin
        obtain ⟨x0, hx0, hmap⟩ := List.mem_map.mp hxin
        by_cases hk0 : key x0 = key s
        · have hx' : x = upd s x0 := by
            rw [← hmap]
            exact if_pos hk0
          rw [hx', hover]
        · exfalso
          apply hk0
          have hx' : x = x0 := by
            rw [← hmap]
            exact if_neg hk0
          rw [← hx', ← hks]
      · rw [if_neg hc] at hxin
        rcases List.mem_append.mp hxin with h3 | h3
        · exact absurd (List.any_eq_true.mpr ⟨x, h3, decide_eq_true hks.symm⟩) hc
        · rw [List.mem_singleton.mp h3, hself]

/-- Re-running the very same upsert batch over the table it produced is the
identity: insert-only fields come from the first record with a key, which
is already in place, and updatable fields come from the last, which the
replay restores. -/
theorem upsertAll_absorb (hk : ∀ s x, key (upd s x) = key x)
    (hover : ∀ s s' x, upd s (upd s' x) = upd s x)
    (hself : ∀ s, upd s s = s) (t rs : List R) :
    upsertAll key upd (upsertAll key upd t rs) rs = upsertAll key upd t rs := by
  rw [upsertAll_eq_map hk (upsertAll key upd t rs) rs
    (fun r hr => keyMem_upsertAll_of_mem hk t rs r hr)]
  have hfix : ∀ x ∈ upsertAll key upd t rs, replayRow key upd rs x = x := by
    intro x hx
    by_cases hkx : ∃ r ∈ rs, key r = key x
    · exact replayRow_stable hk hover hself rs t x hx hkx x (relUpd_refl x)
    · exact replayRow_of_not_key rs x (fun r hr hc => hkx ⟨r, hr, hc⟩)
  calc (upsertAll key upd t rs).map (replayRow key upd rs)
      = (upsertAll key upd t rs).map id := List.map_congr_left hfix
    _ = upsertAll key upd t rs := List.map_id _

theorem map_key_upsert1_of_mem (hk : ∀ s x, key (upd s x) = key x)
    (t : List R) (r : R) (hc : t.any (fun x => decide (key x = key r)) = true) :
    (upsert1 key upd t r).map key = t.map key := by
  unfold upsert1
  rw [if_pos hc, List.map_map]
  exact List.map_congr_left (fun x _ => key_updIf hk r x)

/-- Upserting never produces two rows with the same natural key. -/
theorem nodup_keys_upsert1 (hk : ∀ s x, key (upd s x) = key x)
    (t : List R) (r : R) (h : (t.map key).Nodup) :
    ((upsert1 key upd t r).map key).Nodup := by
  by_cases hc : t.any (fun x => decide (key x = key r)) = true
  · rw [map_key_upsert1_of_mem hk t r hc]
    exact h
  · unfold upsert1
    rw [if_neg hc, List.map_append]
    rw [List.nodup_append]
    refine ⟨h, List.nodup_singleton _, ?_⟩
    intro k hk1 hk2
    obtain ⟨x, hx, hkx⟩ := List.mem_map.mp hk1
    apply hc
    rw [List.mem_map] at hk2
    obtain ⟨y, hy, hky⟩ := hk2
    rw [List.mem_singleton.mp hy] at hky
    exact List.any_eq_true.mpr ⟨x, hx, decide_eq_true (by rw [hkx, ← hky])⟩

theorem nodup_keys_upsertAll (hk : ∀ s x, key (upd s x) = key x)
    (t : List R) (rs : List R) (h : (t.map key).Nodup) :
    ((upsertAll key upd t rs).map key).Nodup := by
  induction rs generalizing t with
  | nil => exact h
  | cons r rs ih => exact ih _ (nodup_keys_upsert1 hk t r h)

end Upsert

theorem getV_of_not_key (r : Row) (c : String)
    (h : (r.any fun p => p.1 = c) = false) : getV r c = Val.null := by
  induction r with
  | nil => rfl
  | cons p ps ih =>
    simp only [List.any_cons, Bool.or_eq_false_iff] at h
    have hp : ¬ p.1 = c := by simpa using h.1
    simpa [getV, hp] using ih h.2

theorem getV_append_of_not_key (r r' : Row) (c : String)
    (h : (r.any fun p => p.1 = c) = false) : getV (r ++ r') c = getV r' c := by
  induction r with
  | nil => rfl
  | cons p ps ih =>
    simp only [List.any_cons, Bool.or_eq_false_iff] at h
    have hp : ¬ p.1 = c := by simpa using h.1
    simpa [getV, hp] using ih h.2

theorem getV_append_single_ne (r : Row) (c c' : String) (v : Val) (h : c' ≠ c) :
    getV (r ++ [(c, v)]) c' = getV r c' := by
  induction r with
  | nil => simp [getV, Ne.symm h]
  | cons p ps ih =>
    by_cases hp : p.1 = c'
    · simp [getV, hp]
    · simp [getV, hp, ih]

theorem getV_mapUpd_ne (r : Row) (c c' : String) (v : Val) (h : c' ≠ c) :
    getV (r.map fun p => if p.1 = c then (c, v) else p) c' = getV r c' := by
  induction r with
  | nil => rfl
  | cons p ps ih =>
    by_cases hp : p.1 = c
    · have h1 : ¬ (c : String) = c' := Ne.symm h
      have h2 : ¬ p.1 = c' := by rw [hp]; exact Ne.symm h
      simp [getV, hp, h1, h2, ih]
    · by_cases hc' : p.1 = c'
      · simp [getV, hp, hc', h, ih]
      · simp [getV, hp, hc', ih]

theorem getV_mapUpd_self (r : Row) (c : String) (v : Val)
    (h : (r.any fun p => p.1 = c) = true) :
    getV (r.map fun p => if p.1 = c then (c, v) else p) c = v := by
  induction r with
  | nil => simp at h
  | cons p ps ih =>
    by_cases hp : p.1 = c
    · simp [getV, hp]
    · simp only [List.any_cons] at h
      rcases Bool.or_eq_true_iff.mp h with h1 | h2
      · exact absurd (of_decide_eq_true h1) hp
      · simpa [getV, hp] using ih h2

theorem getV_setV_self (r : Row) (c : String) (v : Val) :
    getV (setV r c v) c = v := by
  unfold setV
  by_cases h : r.any (fun p => p.1 = c)
  · rw [if_pos h]
    exact getV_mapUpd_self r c v h
  · rw [Bool.not_eq_true] at h
    rw [if_neg (by simp [h]), getV_append_of_not_key r _ c h]
    simp [getV]

theorem getV_setV_ne (r : Row) (c c' : String) (v : Val) (h : c' ≠ c) :
    getV (setV r c v) c' = getV r c' := by
  unfold setV
  by_cases ha : r.any (fun p => p.1 = c)
  · rw [if_pos ha]
    exact getV_mapUpd_ne r c c' v h
  · rw [Bool.not_eq_true] at ha
    rw [if_neg (by simp [ha])]
    exact getV_append_single_ne r c c' v h

/-! ## Structure lemmas about the validators -/

theorem dropFooterRows_cols (df : DF) (c : String) :
    (dropFooterRows df c).cols = df.cols := by
  unfold dropFooterRows
  split <;> rfl

theorem mem_dropFooterRows (df : DF) (c : String) (r : Row)
    (h : r ∈ (dropFooterRows df c).rows) :
    r ∈ df.rows ∧ footerCell (getV r c) = false := by
  unfold dropFooterRows at h
  by_cases he : df.rows = []
  · rw [if_pos he] at h
    rw [he] at h
    exact absurd h (List.not_mem_nil r)
  · rw [if_neg he] at h
    simp only [List.mem_filter] at h
    exact ⟨h.1, by simpa using h.2⟩

theorem dropFooterRows_all_footer (df : DF) (c : String)
    (h : ∀ r ∈ df.rows, footerCell (getV r c) = true) :
    (dropFooterRows df c).rows = [] := by
  unfold dropFooterRows
  by_cases he : df.rows = []
  · rw [if_pos he]
    exact he
  · rw [if_neg he]
    simp only
    rw [List.filter_eq_nil_iff]
    intro a ha
    simp [h a ha]

/-- Inversion of a successful `validate_comercio`: the column list is
preserved, the required check passed, and the rows are either empty or the
footer-free rows transformed and filtered, with the drop count logged. -/
theorem validate_comercio_ok_cases (df out : DF) (logs : List LogEv)
    (h : validate_comercio df = Except.ok (out, logs)) :
    out.cols = df.cols ∧
    missingCols requiredComercioCols df = [] ∧
    (out.rows = [] ∨
     (out.rows =
        (((dropFooterRows df "id_comercio").rows.map nulByteRow).map
          comercioTransform).filter comercioKeep ∧
      logs =
        (if ((((dropFooterRows df "id_comercio").rows.map nulByteRow).map
              comercioTransform).filter comercioKeep).length <
            (((dropFooterRows df "id_comercio").rows.map nulByteRow).map
              comercioTransform).length then
          [LogEv.droppedRows "comercio"
            ((((dropFooterRows df "id_comercio").rows.map nulByteRow).map
                comercioTransform).length -
             ((((dropFooterRows df "id_comercio").rows.map nulByteRow).map
                comercioTransform).filter comercioKeep).length)]
        else []))) := by
  unfold validate_comercio at h
  by_cases h1 : missingCols requiredComercioCols df = []
  · rw [if_neg (not_not_intro h1)] at h
    by_cases h2 : (dropFooterRows df "id_comercio").rows = []
    · rw [if_pos h2] at h
      injection h with h
      injection h with hout hlogs
      refine ⟨?_, h1, Or.inl ?_⟩
      · rw [← hout]
        exact dropFooterRows_cols df _
      · rw [← hout]
    · rw [if_neg h2] at h
      injection h with h
      injection h with hout hlogs
      refine ⟨?_, h1, Or.inr ⟨?_, ?_⟩⟩
      · rw [← hout]
        exact dropFooterRows_cols df _
      · rw [← hout]
      · rw [← hlogs]
  · rw [if_pos h1] at h
    exact Except.noConfusion h

/-- Inversion of a successful `validate_sucursales`. -/
theorem validate_sucursales_ok_cases (df out : DF) (logs : List LogEv)
    (h : validate_sucursales df = Except.ok (out, logs)) :
    out.cols = df.cols ∧
    missingCols requiredSucursalesCols df = [] ∧
    (out.rows = [] ∨
     (missingCols sucursalesCastCols (dropFooterRows df "id_comercio") = [] ∧
      out.rows =
        (((dropFooterRows df "id_comercio").rows.map sucTransform).filter
          sucKeep).map tipoNorm ∧
      ((((dropFooterRows df "id_comercio").rows.map sucTransform).filter
          sucKeep).length <
        ((dropFooterRows df "id_comercio").rows.map sucTransform).length →
        LogEv.droppedRows "sucursales"
          (((dropFooterRows df "id_comercio").rows.map sucTransform).length -
           (((dropFooterRows df "id_comercio").rows.map sucTransform).filter
              sucKeep).length) ∈ logs))) := by
  unfold validate_sucursales at h
  by_cases h1 : missingCols requiredSucursalesCols df = []
  · rw [if_neg (not_not_intro h1)] at h
    by_cases h2 : (dropFooterRows df "id_comercio").rows = []
    · rw [if_pos h2] at h
      injection h with h
      injection h with hout hlogs
      refine ⟨?_, h1, Or.inl ?_⟩
      · rw [← hout]
        exact dropFooterRows_cols df _
      · rw [← hout]
    · rw [if_neg h2] at h
      by_cases h3 : missingCols sucursalesCastCols (dropFooterRows df "id_comercio") = []
      · rw [if_neg (not_not_intro h3)] at h
        injection h with h
        injection h with hout hlogs
        refine ⟨?_, h1, Or.inr ⟨h3, ?_, ?_⟩⟩
        · rw [← hout]
          exact dropFooterRows_cols df _
        · rw [← hout]
        · intro hlt
          rw [← hlogs, if_pos hlt]
          exact List.mem_append_left _ (List.mem_singleton_self _)
      · rw [if_pos h3] at h
        exact Except.noConfusion h
  · rw [if_pos h1] at h
    exact Except.noConfusion h

/-- Inversion of a successful `validate_productos`. -/
theorem validate_productos_ok_cases (df out : DF) (logs : List LogEv)
    (h : validate_productos df = Except.ok (out, logs)) :
    out.cols = df.cols ∧
    missingCols requiredProductosCols df = [] ∧
    (out.rows = [] ∨
     (out.rows =
        ((dropFooterRows df "id_producto").rows.map prodTransform).filter
          prodKeep ∧
      ((((dropFooterRows df "id_producto").rows.map prodTransform).filter
          prodKeep).length <
        ((dropFooterRows df "id_producto").rows.map prodTransform).length →
        LogEv.droppedRows "productos"
          (((dropFooterRows df "id_producto").rows.map prodTransform).length -
           ((((dropFooterRows df "id_producto").rows.map prodTransform).filter
              prodKeep)).length) ∈ logs) ∧
      (0 < ((((dropFooterRows df "id_producto").rows.map prodTransform).filter
              prodKeep).filter
              (fun r => nonPositivePrice (getV r "productos_precio_lista"))).length →
        LogEv.negPrices
          ((((dropFooterRows df "id_producto").rows.map prodTransform).filter
              prodKeep).filter
              (fun r => nonPositivePrice (getV r "productos_precio_lista"))).length ∈
          logs))) := by
  unfold validate_productos at h
  by_cases h1 : missingCols requiredProductosCols df = []
  · rw [if_neg (not_not_intro h1)] at h
    by_cases h2 : (dropFooterRows df "id_producto").rows = []
    · rw [if_pos h2] at h
      injection h with h
      injection h with hout hlogs
      refine ⟨?_, h1, Or.inl ?_⟩
      · rw [← hout]
        exact dropFooterRows_cols df _
      · rw [← hout]
    · rw [if_neg h2] at h
      injection h with h
      injection h with hout hlogs
      refine ⟨?_, h1, Or.inr ⟨?_, ?_, ?_⟩⟩
      · rw [← hout]
        exact dropFooterRows_cols df _
      · rw [← hout]
      · intro hlt
        rw [← hlogs, if_pos hlt]
        exact List.mem_append_left _ (List.mem_singleton_self _)
      · intro hpos
        rw [← hlogs, if_pos hpos]
        exact List.mem_append_right _ (List.mem_singleton_self _)
  · rw [if_pos h1] at h
    exact Except.noConfusion h

/-- C10: for every accepted input, each of validate_comercio,
validate_sucursales and validate_productos returns a DataFrame whose column
list equals the input's column list — validation removes rows and rewrites
values but never adds or removes a column, and an all-filtered result still
carries the input's columns. -/
theorem C10_validators_preserve_columns (df out : DF) (logs : List LogEv) :
    (validate_comercio df = Except.ok (out, logs) → out.cols = df.cols) ∧
    (validate_sucursales df = Except.ok (out, logs) → out.cols = df.cols) ∧
    (validate_productos df = Except.ok (out, logs) → out.cols = df.cols) :=
  ⟨fun h => (validate_comercio_ok_cases df out logs h).1,
   fun h => (validate_sucursales_ok_cases df out logs h).1,
   fun h => (validate_productos_ok_cases df out logs h).1⟩

/-- Witness for C10 at a concrete frame (all columns preserved, including
for an input in which a row is filtered out). -/
theorem C10_witness :
    validate_sucursales wSucursalesDF = Except.ok
      (wSucursalesOut, [LogEv.droppedRows "sucursales" 1]) ∧
    wSucursalesOut.cols = wSucursalesDF.cols :=
  have h : validate_sucursales wSucursalesDF = Except.ok
      (wSucursalesOut, [LogEv.droppedRows "sucursales" 1]) := by decide
  ⟨h, (C10_validators_preserve_columns wSucursalesDF wSucursalesOut
        [LogEv.droppedRows "sucursales" 1]).2.1 h⟩

/-- C5: a row whose designated marker column (id_comercio for comercio and
sucursales, id_producto for productos) contains the trailer marker
case-insensitively never appears in validated output: every output row
stems from a non-trailer input row, and an all-trailer input validates to
an empty frame. -/
theorem C5_trailer_rows_never_validate (df out : DF) (logs : List LogEv) :
    (validate_comercio df = Except.ok (out, logs) →
      (∀ r' ∈ out.rows, ∃ r ∈ df.rows,
        footerCell (getV r "id_comercio") = false ∧
        r' = comercioTransform (nulByteRow r)) ∧
      ((∀ r ∈ df.rows, footerCell (getV r "id_comercio") = true) →
        out.rows = [])) ∧
    (validate_sucursales df = Except.ok (out, logs) →
      (∀ r' ∈ out.rows, ∃ r ∈ df.rows,
        footerCell (getV r "id_comercio") = false ∧
        r' = tipoNorm (sucTransform r)) ∧
      ((∀ r ∈ df.rows, footerCell (getV r "id_comercio") = true) →
        out.rows = [])) ∧
    (validate_productos df = Except.ok (out, logs) →
      (∀ r' ∈ out.rows, ∃ r ∈ df.rows,
        footerCell (getV r "id_producto") = false ∧
        r' = prodTransform r) ∧
      ((∀ r ∈ df.rows, footerCell (getV r "id_producto") = true) →
        out.rows = [])) := by
  refine ⟨fun h => ?_, fun h => ?_, fun h => ?_⟩
  · obtain ⟨-, -, hc⟩ := validate_comercio_ok_cases df out logs h
    rcases hc with hc | ⟨hrows, -⟩
    · refine ⟨fun r' hr' => absurd (hc ▸ hr') (List.not_mem_nil r'), fun _ => hc⟩
    · constructor
      · intro r' hr'
        rw [hrows] at hr'
        have hmem := (List.mem_filter.mp hr').1
        obtain ⟨b, hb, hba⟩ := List.mem_map.mp hmem
        obtain ⟨r, hr, hrb⟩ := List.mem_map.mp hb
        obtain ⟨hrdf, hfoot⟩ := mem_dropFooterRows df _ r hr
        exact ⟨r, hrdf, hfoot, by rw [← hba, ← hrb]⟩
      · intro hall
        rw [hrows, dropFooterRows_all_footer df _ hall]
        rfl
  · obtain ⟨-, -, hc⟩ := validate_sucursales_ok_cases df out logs h
    rcases hc with hc | ⟨-, hrows, -⟩
    · refine ⟨fun r' hr' => absurd (hc ▸ hr') (List.not_mem_nil r'), fun _ => hc⟩
    · constructor
      · intro r' hr'
        rw [hrows] at hr'
        obtain ⟨a, ha, hba⟩ := List.mem_map.mp hr'
        obtain ⟨r, hr, hrb⟩ := List.mem_map.mp (List.mem_filter.mp ha).1
        obtain ⟨hrdf, hfoot⟩ := mem_dropFooterRows df _ r hr
        exact ⟨r, hrdf, hfoot, by rw [← hba, ← hrb]⟩
      · intro hall
        rw [hrows, dropFooterRows_all_footer df _ hall]
        rfl
  · obtain ⟨-, -, hc⟩ := validate_productos_ok_cases df out logs h
    rcases hc with hc | ⟨hrows, -, -⟩
    · refine ⟨fun r' hr' => absurd (hc ▸ hr') (List.not_mem_nil r'), fun _ => hc⟩
    · constructor
      · intro r' hr'
        rw [hrows] at hr'
        obtain ⟨a, ha, hba⟩ := List.mem_map.mp (List.mem_filter.mp hr').1
        obtain ⟨hrdf, hfoot⟩ := mem_dropFooterRows df _ a ha
        exact ⟨a, hrdf, hfoot, by rw [← hba]⟩
      · intro hall
        rw [hrows, dropFooterRows_all_footer df _ hall]
        rfl

/-- Witness for C5: a productos frame whose second row is a trailer row
(marker inside `id_producto`, mixed case) validates to output that stems
only from the non-trailer row. -/
theorem C5_witness :
    validate_productos wProductosDF = Except.ok (wProductosOut, [LogEv.negPrices 1]) ∧
    (∀ r' ∈ wProductosOut.rows, ∃ r ∈ wProductosDF.rows,
      footerCell (getV r "id_producto") = false ∧ r' = prodTransform r) :=
  have h : validate_productos wProductosDF =
      Except.ok (wProductosOut, [LogEv.negPrices 1]) := by decide
  ⟨h, ((C5_trailer_rows_never_validate wProductosDF wProductosOut
        [LogEv.negPrices 1]).2.2 h).1⟩

/-- C6: every validated sucursales row has non-null id_comercio, id_bandera,
id_sucursal, localidad and provincia; every validated productos row has
non-null keys and list price; dropped rows are counted in a logged
warning. -/
theorem C6_required_fields_non_null (df out : DF) (logs : List LogEv) :
    (validate_sucursales df = Except.ok (out, logs) →
      (∀ r ∈ out.rows,
        getV r "id_comercio" ≠ Val.null ∧ getV r "id_bandera" ≠ Val.null ∧
        getV r "id_sucursal" ≠ Val.null ∧
        getV r "sucursales_localidad" ≠ Val.null ∧
        getV r "sucursales_provincia" ≠ Val.null) ∧
      (out.rows ≠ [] →
        ((((dropFooterRows df "id_comercio").rows.map sucTransform).filter
            sucKeep).length <
          ((dropFooterRows df "id_comercio").rows.map sucTransform).length →
          LogEv.droppedRows "sucursales"
            (((dropFooterRows df "id_comercio").rows.map sucTransform).length -
             (((dropFooterRows df "id_comercio").rows.map sucTransform).filter
                sucKeep).length) ∈ logs))) ∧
    (validate_productos df = Except.ok (out, logs) →
      (∀ r ∈ out.rows,
        getV r "id_comercio" ≠ Val.null ∧ getV r "id_bandera" ≠ Val.null ∧
        getV r "id_sucursal" ≠ Val.null ∧ getV r "id_producto" ≠ Val.null ∧
        getV r "productos_precio_lista" ≠ Val.null) ∧
      (out.rows ≠ [] →
        ((((dropFooterRows df "id_producto").rows.map prodTransform).filter
            prodKeep).length <
          ((dropFooterRows df "id_producto").rows.map prodTransform).length →
          LogEv.droppedRows "productos"
            (((dropFooterRows df "id_producto").rows.map prodTransform).length -
             (((dropFooterRows df "id_producto").rows.map prodTransform).filter
                prodKeep).length) ∈ logs))) := by
  constructor
  · intro h
    obtain ⟨-, -, hc⟩ := validate_sucursales_ok_cases df out logs h
    rcases hc with hc | ⟨-, hrows, hlog⟩
    · exact ⟨fun r hr => absurd (hc ▸ hr) (List.not_mem_nil r),
        fun hne => absurd hc hne⟩
    · constructor
      · intro r hr
        rw [hrows] at hr
        obtain ⟨a, ha, hba⟩ := List.mem_map.mp hr
        have hk : sucKeep a = true := (List.mem_filter.mp ha).2
        unfold sucKeep at hk
        simp only [Bool.and_eq_true, isNotNull, decide_eq_true_eq] at hk
        have htipo : ("sucursales_tipo" : String) ≠ "id_comercio" := by decide
        rw [← hba]
        unfold tipoNorm
        refine ⟨?_, ?_, ?_, ?_, ?_⟩ <;>
          rw [getV_setV_ne _ _ _ _ (by decide)]
        · exact hk.1.1.1.1
        · exact hk.1.1.1.2
        · exact hk.1.1.2
        · exact hk.1.2
        · exact hk.2
      · exact fun _ => hlog
  · intro h
    obtain ⟨-, -, hc⟩ := validate_productos_ok_cases df out logs h
    rcases hc with hc | ⟨hrows, hlog, -⟩
    · exact ⟨fun r hr => absurd (hc ▸ hr) (List.not_mem_nil r),
        fun hne => absurd hc hne⟩
    · constructor
      · intro r hr
        rw [hrows] at hr
        have hk : prodKeep r = true := (List.mem_filter.mp hr).2
        unfold prodKeep at hk
        simp only [Bool.and_eq_true, isNotNull, decide_eq_true_eq] at hk
        exact ⟨hk.1.1.1.1.1, hk.1.1.1.1.2, hk.1.1.1.2, hk.1.1.2, hk.1.2⟩
      · exact fun _ => hlog

/-- Witness for C6: the concrete sucursales frame drops its null-keyed row,
logs the count, and the surviving row has all five fields non-null. -/
theorem C6_witness :
    validate_sucursales wSucursalesDF = Except.ok
      (wSucursalesOut, [LogEv.droppedRows "sucursales" 1]) ∧
    (∀ r ∈ wSucursalesOut.rows,
      getV r "id_comercio" ≠ Val.null ∧ getV r "id_bandera" ≠ Val.null ∧
      getV r "id_sucursal" ≠ Val.null ∧
      getV r "sucursales_localidad" ≠ Val.null ∧
      getV r "sucursales_provincia" ≠ Val.null) :=
  have h : validate_sucursales wSucursalesDF = Except.ok
      (wSucursalesOut, [LogEv.droppedRows "sucursales" 1]) := by decide
  ⟨h, ((C6_required_fields_non_null wSucursalesDF wSucursalesOut
        [LogEv.droppedRows "sucursales" 1]).1 h).1⟩

/-! ## C7 — soft-cast behaviour of "1.0" and "abc" -/

/-- Counterexample to C7 as stated: the claim asserts input "1.0" in
`id_comercio` validates to "1" in validate_sucursales as well, but the
sucursales and productos validators only trim that column, so "1.0" comes
out as "1.0", not "1". -/
theorem C7_counterexample :
    validate_sucursales wSucursalesDF = Except.ok
      (wSucursalesOut, [LogEv.droppedRows "sucursales" 1]) ∧
    (wSucursalesOut.rows.map (fun r => getV r "id_comercio")) = [Val.str "1.0"] ∧
    Val.str "1.0" ≠ Val.str "1" := by
  refine ⟨by decide, by decide, by decide⟩

/-- C7 amended: "1.0" becomes "1" in `id_comercio` only in
validate_comercio (a trailing-".0" regex strip, not the float path); the
genuinely numeric id columns (id_bandera, id_sucursal, id_producto) go
through the float-then-integer-truncation path ("1.0" to the integer 1);
validate_sucursales and validate_productos leave `id_comercio` "1.0"
untouched apart from a trim; a failing cast such as "abc" becomes null
without raising (the row is kept when the column is not required
non-null). -/
theorem C7_amended_soft_casts :
    validate_comercio wComercioDF = Except.ok (wComercioOut, []) ∧
    (wComercioOut.rows.map (fun r => getV r "id_comercio")) = [Val.str "1"] ∧
    (wComercioOut.rows.map (fun r => getV r "id_bandera")) = [Val.int 1] ∧
    (wComercioOut.rows.map (fun r => getV r "comercio_cuit")) = [Val.null] ∧
    validate_sucursales wSucursalesDF = Except.ok
      (wSucursalesOut, [LogEv.droppedRows "sucursales" 1]) ∧
    (wSucursalesOut.rows.map (fun r => getV r "id_comercio")) = [Val.str "1.0"] ∧
    (wSucursalesOut.rows.map (fun r => getV r "id_sucursal")) = [Val.int 3] ∧
    validate_productos wProductosDF = Except.ok
      (wProductosOut, [LogEv.negPrices 1]) ∧
    (wProductosOut.rows.map (fun r => getV r "id_comercio")) = [Val.str "2.0"] ∧
    (wProductosOut.rows.map (fun r => getV r "id_producto")) = [Val.int 4] := by
  decide

/-! ## C8 — schema errors and exception safety -/

theorem missingCols_dropFooterRows (req : List String) (df : DF) (c : String) :
    missingCols req (dropFooterRows df c) = missingCols req df := by
  unfold missingCols
  rw [dropFooterRows_cols]

theorem validate_comercio_error_iff (df : DF) :
    (∃ e, validate_comercio df = Except.error e) ↔
      missingCols requiredComercioCols df ≠ [] := by
  constructor
  · rintro ⟨e, he⟩
    intro hm
    unfold validate_comercio at he
    rw [if_neg (not_not_intro hm)] at he
    by_cases h2 : (dropFooterRows df "id_comercio").rows = []
    · rw [if_pos h2] at he
      exact Except.noConfusion he
    · rw [if_neg h2] at he
      exact Except.noConfusion he
  · intro hm
    refine ⟨"comercio.csv missing columns", ?_⟩
    unfold validate_comercio
    rw [if_pos hm]

theorem validate_productos_error_iff (df : DF) :
    (∃ e, validate_productos df = Except.error e) ↔
      missingCols requiredProductosCols df ≠ [] := by
  constructor
  · rintro ⟨e, he⟩
    intro hm
    unfold validate_productos at he
    rw [if_neg (not_not_intro hm)] at he
    by_cases h2 : (dropFooterRows df "id_producto").rows = []
    · rw [if_pos h2] at he
      exact Except.noConfusion he
    · rw [if_neg h2] at he
      exact Except.noConfusion he
  · intro hm
    refine ⟨"productos.csv missing columns", ?_⟩
    unfold validate_productos
    rw [if_pos hm]

theorem validate_sucursales_error_iff (df : DF) :
    (∃ e, validate_sucursales df = Except.error e) ↔
      (missingCols requiredSucursalesCols df ≠ [] ∨
       ((dropFooterRows df "id_comercio").rows ≠ [] ∧
        missingCols sucursalesCastCols df ≠ [])) := by
  constructor
  · rintro ⟨e, he⟩
    unfold validate_sucursales at he
    by_cases h1 : missingCols requiredSucursalesCols df = []
    · rw [if_neg (not_not_intro h1)] at he
      by_cases h2 : (dropFooterRows df "id_comercio").rows = []
      · rw [if_pos h2] at he
        exact Except.noConfusion he
      · rw [if_neg h2] at he
        by_cases h3 : missingCols sucursalesCastCols (dropFooterRows df "id_comercio") = []
        · rw [if_neg (not_not_intro h3)] at he
          exact Except.noConfusion he
        · rw [missingCols_dropFooterRows] at h3
          exact Or.inr ⟨h2, h3⟩
    · exact Or.inl h1
  · intro hm
    by_cases h1 : missingCols requiredSucursalesCols df = []
    · rcases hm with hm | ⟨h2, h3⟩
      · exact absurd h1 hm
      · refine ⟨"ColumnNotFoundError sucursales_codigo_postal", ?_⟩
        unfold validate_sucursales
        rw [if_neg (not_not_intro h1), if_neg h2,
          if_pos (by rw [missingCols_dropFooterRows]; exact h3)]
    · refine ⟨"sucursales.csv missing columns", ?_⟩
      unfold validate_sucursales
      rw [if_pos h1]

/-- Counterexample to C8 as stated: this frame's column set is a superset
of the required sucursales columns, yet validate_sucursales raises, because
its cast block references the non-required `sucursales_codigo_postal`. -/
theorem C8_counterexample :
    (∀ c ∈ requiredSucursalesCols, c ∈ wSucNoCPDF.cols) ∧
    validate_sucursales wSucNoCPDF =
      Except.error "ColumnNotFoundError sucursales_codigo_postal" := by
  refine ⟨by decide, by decide⟩

/-- C8 amended: validate_comercio and validate_productos raise exactly when
a required column is absent; validate_sucursales raises exactly when a
required column is absent, or when data rows survive footer removal and
`sucursales_codigo_postal` — referenced by its cast block though not
required — is absent.  No other exception escapes the per-row logic. -/
theorem C8_amended_schema_error_iff (df : DF) :
    ((∃ e, validate_comercio df = Except.error e) ↔
      missingCols requiredComercioCols df ≠ []) ∧
    ((∃ e, validate_productos df = Except.error e) ↔
      missingCols requiredProductosCols df ≠ []) ∧
    ((∃ e, validate_sucursales df = Except.error e) ↔
      (missingCols requiredSucursalesCols df ≠ [] ∨
       ((dropFooterRows df "id_comercio").rows ≠ [] ∧
        missingCols sucursalesCastCols df ≠ []))) :=
  ⟨validate_comercio_error_iff df, validate_productos_error_iff df,
   validate_sucursales_error_iff df⟩

/-- Witness for C8 at the concrete frame missing only
`sucursales_codigo_postal`. -/
theorem C8_witness :
    ∃ e, validate_sucursales wSucNoCPDF = Except.error e :=
  (C8_amended_schema_error_iff wSucNoCPDF).2.2.mpr
    (Or.inr ⟨by decide, by decide⟩)

/-! ## C1 — referential integrity -/

theorem keys2Of_ne_of_rows_ne (df : DF) (h : df.rows ≠ []) :
    keys2Of df ≠ [] := by
  unfold keys2Of
  rw [ne_eq, List.dedup_eq_nil, List.map_eq_nil_iff]
  exact h

theorem keys3Of_ne_of_rows_ne (df : DF) (h : df.rows ≠ []) :
    keys3Of df ≠ [] := by
  unfold keys3Of
  rw [ne_eq, List.dedup_eq_nil, List.map_eq_nil_iff]
  exact h

/-- Every row surviving the sucursales block matches some comercio key,
provided the comercio frame is non-empty. -/
theorem refintSucursales_keys (dfC dfS : DF) (h : dfC.rows ≠ []) :
    ∀ r ∈ (refintSucursales dfC dfS).1.rows,
      (keys2Of dfC).any (fun k => matchKey2 (key2 r) k) = true := by
  unfold refintSucursales
  by_cases hS : dfS.rows = []
  · rw [if_neg (by simp [hS])]
    intro r hr
    rw [hS] at hr
    exact absurd hr (List.not_mem_nil r)
  · have hkS : (if dfS.rows ≠ [] then keys2Of dfS else []) = keys2Of dfS := by
      rw [if_pos hS]
    rw [hkS, if_pos ⟨keys2Of_ne_of_rows_ne dfS hS, keys2Of_ne_of_rows_ne dfC h⟩]
    by_cases ho : (keys2Of dfS).filter
        (fun k => !((keys2Of dfC).any (fun c => matchKey2 k c))) = []
    · rw [if_neg (not_not_intro ho)]
      intro r hr
      have hk : key2 r ∈ keys2Of dfS := by
        unfold keys2Of
        rw [List.mem_dedup]
        exact List.mem_map_of_mem key2 hr
      have := List.filter_eq_nil_iff.mp ho _ hk
      simpa using this
    · rw [if_pos ho]
      intro r hr
      exact (List.mem_filter.mp hr).2

/-- Every row surviving the productos block matches some key of the
(filtered) sucursales, provided those are non-empty. -/
theorem refintProductos_keys (dfS1 dfP : DF) (h : dfS1.rows ≠ []) :
    ∀ r ∈ (refintProductos dfS1 dfP).1.rows,
      (keys3Of dfS1).any (fun k => matchKey3 (key3 r) k) = true := by
  unfold refintProductos
  by_cases hP : dfP.rows = []
  · rw [if_neg (by simp [hP])]
    intro r hr
    rw [hP] at hr
    exact absurd hr (List.not_mem_nil r)
  · have hkS : (if dfS1.rows ≠ [] then keys3Of dfS1 else []) = keys3Of dfS1 := by
      rw [if_pos h]
    have hkP : (if dfP.rows ≠ [] then keys3Of dfP else []) = keys3Of dfP := by
      rw [if_pos hP]
    rw [hkS, hkP,
      if_pos ⟨keys3Of_ne_of_rows_ne dfS1 h, keys3Of_ne_of_rows_ne dfP hP⟩]
    by_cases ho : (keys3Of dfP).filter
        (fun k => !((keys3Of dfS1).any (fun s => matchKey3 k s))) = []
    · rw [if_neg (not_not_intro ho)]
      intro r hr
      have hk : key3 r ∈ keys3Of dfP := by
        unfold keys3Of
        rw [List.mem_dedup]
        exact List.mem_map_of_mem key3 hr
      have := List.filter_eq_nil_iff.mp ho _ hk
      simpa using this
    · rw [if_pos ho]
      intro r hr
      exact (List.mem_filter.mp hr).2

/-- The orphan-sucursales warning carries the distinct orphan-key count. -/
theorem refintSucursales_log (dfC dfS : DF) (hC : dfC.rows ≠ [])
    (hS : dfS.rows ≠ [])
    (ho : (keys2Of dfS).filter
      (fun k => !((keys2Of dfC).any (fun c => matchKey2 k c))) ≠ []) :
    (refintSucursales dfC dfS).2 =
      [LogEv.orphanSucursales ((keys2Of dfS).filter
        (fun k => !((keys2Of dfC).any (fun c => matchKey2 k c)))).length] := by
  unfold refintSucursales
  have hkS : (if dfS.rows ≠ [] then keys2Of dfS else []) = keys2Of dfS := by
    rw [if_pos hS]
  rw [hkS, if_pos ⟨keys2Of_ne_of_rows_ne dfS hS, keys2Of_ne_of_rows_ne dfC hC⟩,
    if_pos ho]

/-- C1 amended: validate_referential_integrity is total (it never raises by
construction) and guarantees the anti-join invariants only when the
reference side is non-empty: with a non-empty comercio frame every returned
sucursal row's (id_comercio, id_bandera) matches a comercio key, and with a
non-empty returned sucursales frame every returned producto row's
(id_comercio, id_bandera, id_sucursal) matches one of its keys; when
filtering occurs the distinct orphan-key count is logged.  When the
reference side is empty the orphans are deliberately kept. -/
theorem C1_amended_referential_integrity (dfC dfS dfP : DF) :
    (dfC.rows ≠ [] →
      ∀ r ∈ (validate_referential_integrity dfC dfS dfP).1.rows,
        (keys2Of dfC).any (fun k => matchKey2 (key2 r) k) = true) ∧
    ((validate_referential_integrity dfC dfS dfP).1.rows ≠ [] →
      ∀ r ∈ (validate_referential_integrity dfC dfS dfP).2.1.rows,
        (keys3Of (validate_referential_integrity dfC dfS dfP).1).any
          (fun k => matchKey3 (key3 r) k) = true) ∧
    (dfC.rows ≠ [] → dfS.rows ≠ [] →
      (keys2Of dfS).filter
        (fun k => !((keys2Of dfC).any (fun c => matchKey2 k c))) ≠ [] →
      LogEv.orphanSucursales ((keys2Of dfS).filter
        (fun k => !((keys2Of dfC).any (fun c => matchKey2 k c)))).length ∈
        (validate_referential_integrity dfC dfS dfP).2.2) := by
  refine ⟨?_, ?_, ?_⟩
  · intro h r hr
    exact refintSucursales_keys dfC dfS h r hr
  · intro h r hr
    exact refintProductos_keys (refintSucursales dfC dfS).1 dfP h r hr
  · intro hC hS ho
    show LogEv.orphanSucursales _ ∈
      (refintSucursales dfC dfS).2 ++ (refintProductos _ dfP).2
    rw [refintSucursales_log dfC dfS hC hS ho]
    exact List.mem_append_left _ (List.mem_singleton_self _)

/-- Counterexample to C1 as stated: validated frames (an empty comercio
set, a validated one-row sucursales frame, an empty productos frame) for
which the returned sucursales still contains a row whose key matches no
comercio key — when one side is empty the function keeps the orphans. -/
theorem C1_counterexample :
    validate_comercio (⟨requiredComercioCols, []⟩ : DF) =
      Except.ok (⟨requiredComercioCols, []⟩, [LogEv.emptyAfterFooter "comercio"]) ∧
    validate_sucursales pSucursalesDF = Except.ok (pSucursalesOut, []) ∧
    validate_productos (⟨requiredProductosCols, []⟩ : DF) =
      Except.ok (⟨requiredProductosCols, []⟩, [LogEv.emptyAfterFooter "productos"]) ∧
    (validate_referential_integrity ⟨requiredComercioCols, []⟩ pSucursalesOut
      ⟨requiredProductosCols, []⟩).1.rows ≠ [] ∧
    (∀ r ∈ (validate_referential_integrity ⟨requiredComercioCols, []⟩ pSucursalesOut
        ⟨requiredProductosCols, []⟩).1.rows,
      (keys2Of (⟨requiredComercioCols, []⟩ : DF)).any
        (fun k => matchKey2 (key2 r) k) = false) := by
  refine ⟨by decide, by decide, by decide, by decide, by decide⟩

/-- Witness for C1 at concrete validated frames with matching keys. -/
theorem C1_witness :
    pComercioOut.rows ≠ [] ∧
    (∀ r ∈ (validate_referential_integrity pComercioOut pSucursalesOut
        pProductosOut).1.rows,
      (keys2Of pComercioOut).any (fun k => matchKey2 (key2 r) k) = true) :=
  ⟨by decide,
   (C1_amended_referential_integrity pComercioOut pSucursalesOut
      pProductosOut).1 (by decide)⟩

/-! ## Frame lemmas for the loader operations -/

theorem upsert_comercios_frame (df : DF) (st : DBState) :
    (upsert_comercios df st).sucursales = st.sucursales ∧
    (upsert_comercios df st).productosMaster = st.productosMaster ∧
    (upsert_comercios df st).precios = st.precios :=
  ⟨rfl, rfl, rfl⟩

theorem upsert_sucursales_frame (df : DF) (st : DBState) :
    (upsert_sucursales df st).comercios = st.comercios ∧
    (upsert_sucursales df st).productosMaster = st.productosMaster ∧
    (upsert_sucursales df st).precios = st.precios := by
  unfold upsert_sucursales
  split <;> exact ⟨rfl, rfl, rfl⟩

theorem upsert_productos_master_frame (df : DF) (st : DBState) :
    (upsert_productos_master df st).comercios = st.comercios ∧
    (upsert_productos_master df st).sucursales = st.sucursales ∧
    (upsert_productos_master df st).precios = st.precios := by
  unfold upsert_productos_master
  split <;> exact ⟨rfl, rfl, rfl⟩

theorem upsert_productos_master_master (df : DF) (st : DBState)
    (h : ¬ df.rows = []) :
    (upsert_productos_master df st).productosMaster =
      upsertAll keyP updP st.productosMaster
        (dedupByIdProducto (df.rows.map productoRecOfRow)) := by
  unfold upsert_productos_master
  rw [if_neg h]

theorem prepare_precios_partition_frame (d : Nat) (st : DBState) :
    (prepare_precios_partition d st).comercios = st.comercios ∧
    (prepare_precios_partition d st).sucursales = st.sucursales ∧
    (prepare_precios_partition d st).productosMaster = st.productosMaster := by
  unfold prepare_precios_partition
  split <;> exact ⟨rfl, rfl, rfl⟩

theorem bulk_load_precios_frame (df : DF) (sc d : Nat) (st : DBState) :
    (bulk_load_precios df sc d st).comercios = st.comercios ∧
    (bulk_load_precios df sc d st).sucursales = st.sucursales ∧
    (bulk_load_precios df sc d st).productosMaster = st.productosMaster :=
  ⟨rfl, rfl, rfl⟩

theorem partRows_map_truncate (d : Nat) (l : List (Nat × List PrecioRow)) :
    partRows d (l.map (fun p => if p.1 = d then (d, []) else p)) = [] := by
  induction l with
  | nil => rfl
  | cons p ps ih =>
    by_cases hp : p.1 = d
    · simp [partRows, hp]
    · simp [partRows, hp, ih]

theorem partRows_append_absent (d : Nat) (l l' : List (Nat × List PrecioRow))
    (h : l.any (fun p => p.1 = d) = false) :
    partRows d (l ++ l') = partRows d l' := by
  induction l with
  | nil => rfl
  | cons p ps ih =>
    simp only [List.any_cons, Bool.or_eq_false_iff] at h
    have hp : ¬ p.1 = d := by simpa using h.1
    simpa [partRows, hp] using ih h.2

theorem prepare_partRows (d : Nat) (st : DBState) :
    partRows d (prepare_precios_partition d st).precios = [] := by
  unfold prepare_precios_partition
  by_cases hc : st.precios.any (fun p => p.1 = d) = true
  · rw [if_pos hc]
    exact partRows_map_truncate d st.precios
  · rw [Bool.not_eq_true] at hc
    rw [if_neg (by simp [hc])]
    show partRows d (st.precios ++ [(d, [])]) = []
    rw [partRows_append_absent d _ _ hc]
    simp [partRows]

theorem prepare_hasPart (d : Nat) (st : DBState) :
    ((prepare_precios_partition d st).precios.any (fun p => p.1 = d)) = true := by
  unfold prepare_precios_partition
  by_cases hc : st.precios.any (fun p => p.1 = d) = true
  · rw [if_pos hc]
    obtain ⟨p, hp, hpd⟩ := List.any_eq_true.mp hc
    refine List.any_eq_true.mpr ⟨if p.1 = d then (d, []) else p, List.mem_map_of_mem _ hp, ?_⟩
    rw [if_pos (of_decide_eq_true hpd)]
    exact decide_eq_true rfl
  · rw [Bool.not_eq_true] at hc
    rw [if_neg (by simp [hc])]
    show ((st.precios ++ [(d, [])]).any (fun p => p.1 = d)) = true
    rw [List.any_append]
    simp

theorem partRows_map_append_present (d : Nat) (l : List (Nat × List PrecioRow))
    (xs : List PrecioRow) (h : l.any (fun p => p.1 = d) = true) :
    partRows d (l.map (fun p => if p.1 = d then (p.1, p.2 ++ xs) else p)) =
      partRows d l ++ xs := by
  induction l with
  | nil => simp at h
  | cons p ps ih =>
    by_cases hp : p.1 = d
    · simp [partRows, hp]
    · simp only [List.any_cons] at h
      rcases Bool.or_eq_true_iff.mp h with h1 | h2
      · exact absurd (of_decide_eq_true h1) hp
      · simpa [partRows, hp] using ih h2

theorem hasPart_map_set (d : Nat) (l : List (Nat × List PrecioRow))
    (f : Nat × List PrecioRow → List PrecioRow) :
    ((l.map (fun p => if p.1 = d then (p.1, f p) else p)).any
      (fun p => p.1 = d)) = (l.any (fun p => p.1 = d)) := by
  induction l with
  | nil => rfl
  | cons p ps ih =>
    by_cases hp : p.1 = d
    · simp [hp]
    · simp [hp, ih]

theorem bulk_load_partRows (df : DF) (sc d : Nat) (st : DBState)
    (h : (st.precios.any (fun p => p.1 = d)) = true) :
    partRows d (bulk_load_precios df sc d st).precios =
      partRows d st.precios ++ df.rows.map (precioRowOfRow sc d) := by
  unfold bulk_load_precios
  exact partRows_map_append_present d st.precios _ h

theorem bulk_load_hasPart (df : DF) (sc d : Nat) (st : DBState) :
    ((bulk_load_precios df sc d st).precios.any (fun p => p.1 = d)) =
      (st.precios.any (fun p => p.1 = d)) := by
  unfold bulk_load_precios
  exact hasPart_map_set d st.precios _

/-- Everything a single loop iteration does, in terms of the
state-independent chunk characterizations: dimensions other than
productos_master are untouched, the master receives the chunk's records,
the count and events are as characterized, and the partition of the date
receives exactly the chunk's fact rows. -/
theorem processChunk_spec (dfC dfS : DF) (sc d : Nat) (st : DBState)
    (idx : Nat) (c : ChunkInput) :
    (processChunk dfC dfS sc d st idx c).1.comercios = st.comercios ∧
    (processChunk dfC dfS sc d st idx c).1.sucursales = st.sucursales ∧
    (processChunk dfC dfS sc d st idx c).1.productosMaster =
      upsertAll keyP updP st.productosMaster (chunkRecs dfC dfS c) ∧
    (processChunk dfC dfS sc d st idx c).2.1 = chunkCount dfC dfS c ∧
    (∀ ev ∈ (processChunk dfC dfS sc d st idx c).2.2, isChunkEv ev = true) ∧
    (∀ msg, chunkFailMsg dfC dfS c = some msg →
      Ev.chunkFailEv (idx + 1) msg ∈ (processChunk dfC dfS sc d st idx c).2.2) ∧
    ((st.precios.any (fun p => p.1 = d)) = true →
      partRows d (processChunk dfC dfS sc d st idx c).1.precios =
        partRows d st.precios ++ chunkLoadRows dfC dfS sc d c) ∧
    ((st.precios.any (fun p => p.1 = d)) = true →
      ((processChunk dfC dfS sc d st idx c).1.precios.any
        (fun p => p.1 = d)) = true) := by
  unfold processChunk chunkRecs chunkCount chunkLoadRows chunkFailMsg
  cases c.readResult with
  | error e =>
    refine ⟨rfl, rfl, rfl, rfl, ?_, ?_, ?_, fun h => h⟩
    · intro ev hev
      rw [List.mem_singleton.mp hev]
      rfl
    · intro msg hmsg
      injection hmsg with hmsg
      rw [← hmsg]
      exact List.mem_singleton_self _
    · intro h
      exact (List.append_nil _).symm
  | ok df0 =>
    simp only [processChunkRead, chunkRecsRead, chunkCountRead,
      chunkLoadRowsRead, chunkFailMsgRead]
    cases hv : validate_productos df0 with
    | error e =>
      refine ⟨rfl, rfl, rfl, rfl, ?_, ?_, ?_, fun h => h⟩
      · intro ev hev
        rw [List.mem_singleton.mp hev]
        rfl
      · intro msg hmsg
        injection hmsg with hmsg
        rw [← hmsg]
        exact List.mem_singleton_self _
      · intro h
        exact (List.append_nil _).symm
    | ok pr =>
      obtain ⟨df1, lg⟩ := pr
      simp only [processChunkVal, chunkRecsVal, chunkCountVal,
        chunkLoadRowsVal, chunkFailMsgVal]
      by_cases h1 : 0 < ((validate_referential_integrity dfC dfS df1).2.1).rows.length
      · rw [if_pos h1, if_pos h1, if_pos h1, if_pos h1, if_pos h1]
        have hne : ¬ ((validate_referential_integrity dfC dfS df1).2.1).rows = [] :=
          List.ne_nil_of_length_pos h1
        by_cases hu : c.upsertFault = true
        · rw [if_pos hu, if_pos hu, if_pos hu, if_pos hu, if_pos hu]
          refine ⟨rfl, rfl, rfl, rfl, ?_, ?_, ?_, fun h => h⟩
          · intro ev hev
            rw [List.mem_singleton.mp hev]
            rfl
          · intro msg hmsg
            injection hmsg with hmsg
            rw [← hmsg]
            exact List.mem_singleton_self _
          · intro h
            exact (List.append_nil _).symm
        · rw [if_neg hu, if_neg hu, if_neg hu, if_neg hu, if_neg hu]
          by_cases hl : c.loadFault = true
          · rw [if_pos hl, if_pos hl, if_pos hl, if_pos hl]
            refine ⟨?_, ?_, ?_, rfl, ?_, ?_, ?_, ?_⟩
            · exact (upsert_productos_master_frame _ st).1
            · exact (upsert_productos_master_frame _ st).2.1
            · exact upsert_productos_master_master _ st hne
            · intro ev hev
              simp only [List.mem_cons, List.not_mem_nil, or_false] at hev
              rcases hev with rfl | rfl <;> rfl
            · intro msg hmsg
              injection hmsg with hmsg
              rw [← hmsg]
              exact List.mem_cons_of_mem _ (List.mem_singleton_self _)
            · intro h
              rw [(upsert_productos_master_frame _ st).2.2]
              exact (List.append_nil _).symm
            · intro h
              rw [(upsert_productos_master_frame _ st).2.2]
              exact h
          · rw [if_neg hl, if_neg hl, if_neg hl, if_neg hl]
            have hfr := upsert_productos_master_frame
              ((validate_referential_integrity dfC dfS df1).2.1) st
            have hup : (upsert_productos_master
                ((validate_referential_integrity dfC dfS df1).2.1) st).precios.any
                  (fun p => p.1 = d) = st.precios.any (fun p => p.1 = d) := by
              rw [hfr.2.2]
            by_cases hq : c.parquetFault = true
            · rw [if_pos hq, if_pos hq, if_pos hq]
              refine ⟨?_, ?_, ?_, rfl, ?_, ?_, ?_, ?_⟩
              · rw [(bulk_load_precios_frame _ sc d _).1, hfr.1]
              · rw [(bulk_load_precios_frame _ sc d _).2.1, hfr.2.1]
              · rw [(bulk_load_precios_frame _ sc d _).2.2]
                exact upsert_productos_master_master _ st hne
              · intro ev hev
                simp only [List.mem_cons, List.not_mem_nil, or_false] at hev
                rcases hev with rfl | rfl | rfl <;> rfl
              · intro msg hmsg
                injection hmsg with hmsg
                rw [← hmsg]
                exact List.mem_cons_of_mem _
                  (List.mem_cons_of_mem _ (List.mem_singleton_self _))
              · intro h
                rw [bulk_load_partRows _ sc d _ (by rw [hup]; exact h), hfr.2.2]
              · intro h
                rw [bulk_load_hasPart, hup]
                exact h
            · rw [if_neg hq, if_neg hq, if_neg hq]
              refine ⟨?_, ?_, ?_, rfl, ?_, ?_, ?_, ?_⟩
              · rw [(bulk_load_precios_frame _ sc d _).1, hfr.1]
              · rw [(bulk_load_precios_frame _ sc d _).2.1, hfr.2.1]
              · rw [(bulk_load_precios_frame _ sc d _).2.2]
                exact upsert_productos_master_master _ st hne
              · intro ev hev
                simp only [List.mem_cons, List.not_mem_nil, or_false] at hev
                rcases hev with rfl | rfl | rfl <;> rfl
              · intro msg hmsg
                exact Option.noConfusion hmsg
              · intro h
                rw [bulk_load_partRows _ sc d _ (by rw [hup]; exact h), hfr.2.2]
              · intro h
                rw [bulk_load_hasPart, hup]
                exact h
      · rw [if_neg h1, if_neg h1, if_neg h1, if_neg h1, if_neg h1]
        refine ⟨rfl, rfl, rfl, rfl, ?_, ?_, ?_, fun h => h⟩
        · intro ev hev
          exact absurd hev (List.not_mem_nil ev)
        · intro msg hmsg
          exact Option.noConfusion hmsg
        · intro h
          exact (List.append_nil _).symm

/-- The whole chunk loop, by induction from `processChunk_spec`. -/
theorem runChunks_spec (dfC dfS : DF) (sc d : Nat) (cs : List ChunkInput) :
    ∀ (st : DBState) (idx : Nat),
    (runChunks dfC dfS sc d st idx cs).1.comercios = st.comercios ∧
    (runChunks dfC dfS sc d st idx cs).1.sucursales = st.sucursales ∧
    (runChunks dfC dfS sc d st idx cs).1.productosMaster =
      upsertAll keyP updP st.productosMaster
        ((cs.map (chunkRecs dfC dfS)).flatten) ∧
    (runChunks dfC dfS sc d st idx cs).2.1 =
      (cs.map (chunkCount dfC dfS)).sum ∧
    (∀ ev ∈ (runChunks dfC dfS sc d st idx cs).2.2, isChunkEv ev = true) ∧
    ((st.precios.any (fun p => p.1 = d)) = true →
      partRows d (runChunks dfC dfS sc d st idx cs).1.precios =
        partRows d st.precios ++
          (cs.map (chunkLoadRows dfC dfS sc d)).flatten ∧
      ((runChunks dfC dfS sc d st idx cs).1.precios.any
        (fun p => p.1 = d)) = true) := by
  induction cs with
  | nil =>
    intro st idx
    refine ⟨rfl, rfl, rfl, rfl, ?_, ?_⟩
    · intro ev hev
      exact absurd hev (List.not_mem_nil ev)
    · intro h
      exact ⟨(List.append_nil _).symm, h⟩
  | cons c cs ih =>
    intro st idx
    obtain ⟨hc1, hc2, hc3, hc4, hc5, -, hc7, hc8⟩ :=
      processChunk_spec dfC dfS sc d st idx c
    obtain ⟨hr1, hr2, hr3, hr4, hr5, hr6⟩ :=
      ih (processChunk dfC dfS sc d st idx c).1 (idx + 1)
    simp only [runChunks]
    refine ⟨?_, ?_, ?_, ?_, ?_, ?_⟩
    · rw [hr1, hc1]
    · rw [hr2, hc2]
    · rw [hr3, hc3, List.map_cons, List.flatten_cons, upsertAll_append]
    · rw [hr4, hc4, List.map_cons, List.sum_cons]
    · intro ev hev
      rcases List.mem_append.mp hev with hev | hev
      · exact hc5 ev hev
      · exact hr5 ev hev
    · intro h
      obtain ⟨hp1, hp2⟩ := hr6 (hc8 h)
      refine ⟨?_, hp2⟩
      rw [hp1, hc7 h, List.map_cons, List.flatten_cons, List.append_assoc]

/-- A failing chunk is reported with its 1-based ordinal and cause. -/
theorem runChunks_fail (dfC dfS : DF) (sc d : Nat) (cs : List ChunkInput) :
    ∀ (st : DBState) (idx j : Nat) (c : ChunkInput) (msg : String),
      cs.get? j = some c → chunkFailMsg dfC dfS c = some msg →
      Ev.chunkFailEv (idx + j + 1) msg ∈
        (runChunks dfC dfS sc d st idx cs).2.2 := by
  induction cs with
  | nil =>
    intro st idx j c msg hg hm
    exact absurd hg (by simp)
  | cons c0 cs ih =>
    intro st idx j c msg hg hm
    simp only [runChunks]
    cases j with
    | zero =>
      injection hg with hg
      rw [hg]
      exact List.mem_append_left _
        ((processChunk_spec dfC dfS sc d st idx c).2.2.2.2.2.1 msg hm)
    | succ j =>
      have heq : idx + (j + 1) + 1 = (idx + 1) + j + 1 := by omega
      rw [heq]
      exact List.mem_append_right _
        (ih (processChunk dfC dfS sc d st idx c0).1 (idx + 1) j c msg
          (by simpa using hg) hm)

/-- A successful run implies phase 1 succeeded and none of the fatal
injected faults was set. -/
theorem process_ok_inv (inp : PipeInput) (sc d : Nat) (st : DBState) (n : Nat)
    (h : (process_daily_data inp sc d st).2.2 = Except.ok n) :
    (∃ dfC dfS, phase1 inp = Except.ok (dfC, dfS)) ∧
      inp.ucFault = false ∧ inp.usFault = false ∧ inp.prepFault = false := by
  unfold process_daily_data at h
  cases hp : phase1 inp with
  | error e =>
    rw [hp] at h
    exact Except.noConfusion h
  | ok pr =>
    obtain ⟨dfC, dfS⟩ := pr
    rw [hp] at h
    simp only [processPhase1] at h
    unfold processDims at h
    by_cases h1 : inp.ucFault = true
    · rw [if_pos h1] at h
      exact Except.noConfusion h
    · rw [if_neg h1] at h
      by_cases h2 : inp.usFault = true
      · rw [if_pos h2] at h
        exact Except.noConfusion h
      · rw [if_neg h2] at h
        by_cases h3 : inp.prepFault = true
        · rw [if_pos h3] at h
          exact Except.noConfusion h
        · exact ⟨⟨dfC, dfS, rfl⟩, Bool.eq_false_iff.mpr h1,
            Bool.eq_false_iff.mpr h2, Bool.eq_false_iff.mpr h3⟩

/-- Shape of a fault-free run with successful phase 1. -/
theorem process_ok_eq (inp : PipeInput) (sc d : Nat) (st : DBState)
    (dfC dfS : DF) (hp : phase1 inp = Except.ok (dfC, dfS))
    (h1 : inp.ucFault = false) (h2 : inp.usFault = false)
    (h3 : inp.prepFault = false) :
    process_daily_data inp sc d st =
      ((runChunks dfC dfS sc d
          (prepare_precios_partition d
            (upsert_sucursales dfS (upsert_comercios dfC st))) 0 inp.chunks).1,
       [Ev.upsertComerciosEv, Ev.upsertSucursalesEv, Ev.preparePartitionEv d] ++
         (runChunks dfC dfS sc d
           (prepare_precios_partition d
             (upsert_sucursales dfS (upsert_comercios dfC st))) 0 inp.chunks).2.2,
       Except.ok (runChunks dfC dfS sc d
         (prepare_precios_partition d
           (upsert_sucursales dfS (upsert_comercios dfC st))) 0 inp.chunks).2.1) := by
  unfold process_daily_data
  rw [hp]
  simp only [processPhase1]
  unfold processDims
  rw [h1, h2, h3]
  simp only [Bool.false_eq_true, if_false]

/-! ## Update laws of the three dimension upserts -/

theorem keyC_updC (s x : ComercioRec) : keyC (updC s x) = keyC x := rfl

theorem updC_over (s s' x : ComercioRec) : updC s (updC s' x) = updC s x := rfl

theorem updC_self (s : ComercioRec) : updC s s = s := rfl

theorem keyS_updS (s x : SucursalRec) : keyS (updS s x) = keyS x := rfl

theorem updS_over (s s' x : SucursalRec) : updS s (updS s' x) = updS s x := rfl

theorem updS_self (s : SucursalRec) : updS s s = s := rfl

theorem keyP_updP (s x : ProductoRec) : keyP (updP s x) = keyP x := rfl

theorem updP_over (s s' x : ProductoRec) : updP s (updP s' x) = updP s x := rfl

theorem updP_self (s : ProductoRec) : updP s s = s := rfl

/-- The sucursales table after `upsert_sucursales`, as a function of the
previous table. -/
theorem upsert_sucursales_table (df : DF) (st : DBState) :
    (upsert_sucursales df st).sucursales =
      if df.rows = [] then st.sucursales
      else upsertAll keyS updS st.sucursales (df.rows.map sucursalRecOfRow) := by
  unfold upsert_sucursales
  by_cases h : df.rows = []
  · rw [if_pos h, if_pos h]
  · rw [if_neg h, if_neg h]

/-! ## State-independence of the chunk characterizations in the run tag -/

theorem chunkLoadRows_length (dfC dfS : DF) (sc sc' d : Nat) (c : ChunkInput) :
    (chunkLoadRows dfC dfS sc d c).length =
      (chunkLoadRows dfC dfS sc' d c).length := by
  unfold chunkLoadRows
  cases c.readResult with
  | error e => rfl
  | ok df0 =>
    simp only [chunkLoadRowsRead]
    cases validate_productos df0 with
    | error e => rfl
    | ok pr =>
      obtain ⟨df1, lg⟩ := pr
      simp only [chunkLoadRowsVal]
      by_cases h1 : 0 < ((validate_referential_integrity dfC dfS df1).2.1).rows.length
      · rw [if_pos h1, if_pos h1]
        by_cases hu : c.upsertFault = true
        · rw [if_pos hu, if_pos hu]
        · rw [if_neg hu, if_neg hu]
          by_cases hl : c.loadFault = true
          · rw [if_pos hl, if_pos hl]
          · rw [if_neg hl, if_neg hl]
            simp only [List.length_map]
      · rw [if_neg h1, if_neg h1]

theorem flatten_loadRows_length (dfC dfS : DF) (sc sc' d : Nat)
    (cs : List ChunkInput) :
    ((cs.map (chunkLoadRows dfC dfS sc d)).flatten).length =
      ((cs.map (chunkLoadRows dfC dfS sc' d)).flatten).length := by
  induction cs with
  | nil => rfl
  | cons c cs ih =>
    simp only [List.map_cons, List.flatten_cons, List.length_append, ih,
      chunkLoadRows_length dfC dfS sc sc' d c]

theorem chunkLoadRows_scrapedAt (dfC dfS : DF) (sc d : Nat) (c : ChunkInput) :
    ∀ p ∈ chunkLoadRows dfC dfS sc d c, p.scrapedAt = sc := by
  unfold chunkLoadRows
  cases c.readResult with
  | error e => exact fun p hp => absurd hp (List.not_mem_nil p)
  | ok df0 =>
    simp only [chunkLoadRowsRead]
    cases validate_productos df0 with
    | error e => exact fun p hp => absurd hp (List.not_mem_nil p)
    | ok pr =>
      obtain ⟨df1, lg⟩ := pr
      simp only [chunkLoadRowsVal]
      by_cases h1 : 0 < ((validate_referential_integrity dfC dfS df1).2.1).rows.length
      · rw [if_pos h1]
        by_cases hu : c.upsertFault = true
        · rw [if_pos hu]
          exact fun p hp => absurd hp (List.not_mem_nil p)
        · rw [if_neg hu]
          by_cases hl : c.loadFault = true
          · rw [if_pos hl]
            exact fun p hp => absurd hp (List.not_mem_nil p)
          · rw [if_neg hl]
            intro p hp
            obtain ⟨r, -, hr⟩ := List.mem_map.mp hp
            rw [← hr]
            rfl
      · rw [if_neg h1]
        exact fun p hp => absurd hp (List.not_mem_nil p)

theorem flatten_loadRows_scrapedAt (dfC dfS : DF) (sc d : Nat)
    (cs : List ChunkInput) :
    ∀ p ∈ (cs.map (chunkLoadRows dfC dfS sc d)).flatten, p.scrapedAt = sc := by
  intro p hp
  obtain ⟨l, hl, hpl⟩ := List.mem_flatten.mp hp
  obtain ⟨c, -, hc⟩ := List.mem_map.mp hl
  exact chunkLoadRows_scrapedAt dfC dfS sc d c p (hc ▸ hpl)

/-! ## C3 — chunk isolation -/

/-- C3: in a run whose dimension phase succeeded, every chunk is processed
and contributes independently: the reported total is the sum over all
chunks of the rows of the fully-successful ones, and every failing chunk is
logged with its 1-based ordinal and cause. -/
theorem C3_chunk_isolation (inp : PipeInput) (sc d : Nat) (st : DBState)
    (dfC dfS : DF) (hp : phase1 inp = Except.ok (dfC, dfS))
    (h1 : inp.ucFault = false) (h2 : inp.usFault = false)
    (h3 : inp.prepFault = false) :
    (process_daily_data inp sc d st).2.2 =
      Except.ok ((inp.chunks.map (chunkCount dfC dfS)).sum) ∧
    (∀ j c msg, inp.chunks.get? j = some c →
      chunkFailMsg dfC dfS c = some msg →
      Ev.chunkFailEv (j + 1) msg ∈ (process_daily_data inp sc d st).2.1) := by
  rw [process_ok_eq inp sc d st dfC dfS hp h1 h2 h3]
  constructor
  · exact congrArg Except.ok
      (runChunks_spec dfC dfS sc d inp.chunks _ 0).2.2.2.1
  · intro j c msg hg hm
    have hmem := runChunks_fail dfC dfS sc d inp.chunks
      (prepare_precios_partition d
        (upsert_sucursales dfS (upsert_comercios dfC st))) 0 j c msg hg hm
    rw [Nat.zero_add] at hmem
    exact List.mem_append_right _ hmem

/-- Witness for C3: the good chunk's two rows are counted, the bad chunk is
reported as chunk 2 with its cause. -/
theorem C3_witness :
    phase1 c3Inp = Except.ok (pComercioOut, pSucursalesOut) ∧
    (process_daily_data c3Inp 1 5 dbEmpty).2.2 = Except.ok 2 ∧
    Ev.chunkFailEv 2 "malformed csv" ∈
      (process_daily_data c3Inp 1 5 dbEmpty).2.1 := by
  have hp : phase1 c3Inp = Except.ok (pComercioOut, pSucursalesOut) := by decide
  have h := C3_chunk_isolation c3Inp 1 5 dbEmpty pComercioOut pSucursalesOut
    hp rfl rfl rfl
  refine ⟨hp, ?_, ?_⟩
  · rw [h.1]
    decide
  · exact h.2 1 ⟨Except.error "malformed csv", false, false, false⟩
      "malformed csv" (by decide) (by decide)

/-! ## C4 — fatal dimension/partition failures and phase ordering -/

/-- C4: a failure of upsert_comercios, upsert_sucursales or
prepare_precios_partition propagates out of process_daily_data, with no
fact row bulk-loaded in the run (the precios partitions are exactly as
before, and no bulk-load event occurs); and in any successful run the
trace starts with the comercios upsert, the sucursales upsert and the
partition preparation, in that order, before any chunk-level (fact
loading) event. -/
theorem C4_fatal_failures_and_ordering (inp : PipeInput) (sc d : Nat)
    (st : DBState) :
    (inp.ucFault = true →
      ∃ e, process_daily_data inp sc d st = (st, [], Except.error e)) ∧
    (inp.usFault = true →
      ∃ e, (process_daily_data inp sc d st).2.2 = Except.error e ∧
        (process_daily_data inp sc d st).1.precios = st.precios ∧
        ∀ i n, Ev.bulkLoadEv i n ∉ (process_daily_data inp sc d st).2.1) ∧
    (inp.prepFault = true →
      ∃ e, (process_daily_data inp sc d st).2.2 = Except.error e ∧
        (process_daily_data inp sc d st).1.precios = st.precios ∧
        ∀ i n, Ev.bulkLoadEv i n ∉ (process_daily_data inp sc d st).2.1) ∧
    (∀ n, (process_daily_data inp sc d st).2.2 = Except.ok n →
      ∃ rest, (process_daily_data inp sc d st).2.1 =
        [Ev.upsertComerciosEv, Ev.upsertSucursalesEv,
         Ev.preparePartitionEv d] ++ rest ∧
        ∀ ev ∈ rest, isChunkEv ev = true) := by
  refine ⟨?_, ?_, ?_, ?_⟩
  · intro hf
    unfold process_daily_data
    cases hp : phase1 inp with
    | error e => exact ⟨e, rfl⟩
    | ok pr =>
      obtain ⟨dfC, dfS⟩ := pr
      simp only [processPhase1]
      unfold processDims
      rw [if_pos hf]
      exact ⟨"upsert_comercios raised", rfl⟩
  · intro hf
    unfold process_daily_data
    cases hp : phase1 inp with
    | error e =>
      refine ⟨e, rfl, rfl, ?_⟩
      intro i n hmem
      exact absurd hmem (List.not_mem_nil _)
    | ok pr =>
      obtain ⟨dfC, dfS⟩ := pr
      simp only [processPhase1]
      unfold processDims
      by_cases h1 : inp.ucFault = true
      · rw [if_pos h1]
        refine ⟨"upsert_comercios raised", rfl, rfl, ?_⟩
        intro i n hmem
        exact absurd hmem (List.not_mem_nil _)
      · rw [if_neg h1, if_pos hf]
        refine ⟨"upsert_sucursales raised", rfl,
          (upsert_comercios_frame dfC st).2.2, ?_⟩
        intro i n hmem
        rw [List.mem_singleton] at hmem
        exact Ev.noConfusion hmem
  · intro hf
    unfold process_daily_data
    cases hp : phase1 inp with
    | error e =>
      refine ⟨e, rfl, rfl, ?_⟩
      intro i n hmem
      exact absurd hmem (List.not_mem_nil _)
    | ok pr =>
      obtain ⟨dfC, dfS⟩ := pr
      simp only [processPhase1]
      unfold processDims
      by_cases h1 : inp.ucFault = true
      · rw [if_pos h1]
        refine ⟨"upsert_comercios raised", rfl, rfl, ?_⟩
        intro i n hmem
        exact absurd hmem (List.not_mem_nil _)
      · rw [if_neg h1]
        by_cases h2 : inp.usFault = true
        · rw [if_pos h2]
          refine ⟨"upsert_sucursales raised", rfl,
            (upsert_comercios_frame dfC st).2.2, ?_⟩
          intro i n hmem
          rw [List.mem_singleton] at hmem
          exact Ev.noConfusion hmem
        · rw [if_neg h2, if_pos hf]
          refine ⟨"prepare_precios_partition raised", rfl, ?_, ?_⟩
          · rw [(upsert_sucursales_frame dfS _).2.2,
              (upsert_comercios_frame dfC st).2.2]
          · intro i n hmem
            simp only [List.mem_cons, List.not_mem_nil, or_false] at hmem
            rcases hmem with hmem | hmem <;> exact Ev.noConfusion hmem
  · intro n h
    obtain ⟨⟨dfC, dfS, hp⟩, h1, h2, h3⟩ := process_ok_inv inp sc d st n h
    rw [process_ok_eq inp sc d st dfC dfS hp h1 h2 h3]
    exact ⟨_, rfl, (runChunks_spec dfC dfS sc d inp.chunks _ 0).2.2.2.2.1⟩

/-- Witness for C4: with the preparation fault set, the run aborts with the
precios state untouched and no bulk-load event. -/
theorem C4_witness :
    ∃ e, (process_daily_data c4Inp 1 5 dbEmpty).2.2 = Except.error e ∧
      (process_daily_data c4Inp 1 5 dbEmpty).1.precios = dbEmpty.precios ∧
      ∀ i n, Ev.bulkLoadEv i n ∉ (process_daily_data c4Inp 1 5 dbEmpty).2.1 :=
  (C4_fatal_failures_and_ordering c4Inp 1 5 dbEmpty).2.2.1 rfl

/-! ## C2 — idempotence of a re-run for the same date -/

/-- C2: re-running the pipeline for the same date with unchanged inputs
(first with run tag sc1, then sc2) reports the same fact-row total, leaves
every dimension table exactly as after the first run, replaces the date's
partition so that it holds the same number of fact rows, all carrying the
second run's tag; and the key-conflict upserts never introduce duplicate
natural keys into comercios, sucursales or productos_master. -/
theorem C2_idempotent_rerun (inp : PipeInput) (sc1 sc2 d : Nat)
    (st0 : DBState) (n1 : Nat)
    (h1 : (process_daily_data inp sc1 d st0).2.2 = Except.ok n1) :
    (process_daily_data inp sc2 d
        (process_daily_data inp sc1 d st0).1).2.2 = Except.ok n1 ∧
    (process_daily_data inp sc2 d
        (process_daily_data inp sc1 d st0).1).1.comercios =
      (process_daily_data inp sc1 d st0).1.comercios ∧
    (process_daily_data inp sc2 d
        (process_daily_data inp sc1 d st0).1).1.sucursales =
      (process_daily_data inp sc1 d st0).1.sucursales ∧
    (process_daily_data inp sc2 d
        (process_daily_data inp sc1 d st0).1).1.productosMaster =
      (process_daily_data inp sc1 d st0).1.productosMaster ∧
    (partRows d (process_daily_data inp sc2 d
        (process_daily_data inp sc1 d st0).1).1.precios).length =
      (partRows d (process_daily_data inp sc1 d st0).1.precios).length ∧
    (∀ p ∈ partRows d (process_daily_data inp sc2 d
        (process_daily_data inp sc1 d st0).1).1.precios,
      p.scrapedAt = sc2) ∧
    ((st0.comercios.map keyC).Nodup →
      ((process_daily_data inp sc2 d
        (process_daily_data inp sc1 d st0).1).1.comercios.map keyC).Nodup) ∧
    ((st0.sucursales.map keyS).Nodup →
      ((process_daily_data inp sc2 d
        (process_daily_data inp sc1 d st0).1).1.sucursales.map keyS).Nodup) ∧
    ((st0.productosMaster.map keyP).Nodup →
      ((process_daily_data inp sc2 d
        (process_daily_data inp sc1 d st0).1).1.productosMaster.map
          keyP).Nodup) := by
  obtain ⟨⟨dfC, dfS, hp⟩, hf1, hf2, hf3⟩ := process_ok_inv inp sc1 d st0 n1 h1
  have e1 := process_ok_eq inp sc1 d st0 dfC dfS hp hf1 hf2 hf3
  have e2 := process_ok_eq inp sc2 d (process_daily_data inp sc1 d st0).1
    dfC dfS hp hf1 hf2 hf3
  have hA := runChunks_spec dfC dfS sc1 d inp.chunks
    (prepare_precios_partition d
      (upsert_sucursales dfS (upsert_comercios dfC st0))) 0
  have hB := runChunks_spec dfC dfS sc2 d inp.chunks
    (prepare_precios_partition d
      (upsert_sucursales dfS
        (upsert_comercios dfC (process_daily_data inp sc1 d st0).1))) 0
  -- projections of the first run's final state
  have hst1 : (process_daily_data inp sc1 d st0).1 =
      (runChunks dfC dfS sc1 d
        (prepare_precios_partition d
          (upsert_sucursales dfS (upsert_comercios dfC st0))) 0 inp.chunks).1 := by
    rw [e1]
  have h1c : (process_daily_data inp sc1 d st0).1.comercios =
      upsertAll keyC updC st0.comercios (dfC.rows.map comercioRecOfRow) := by
    rw [hst1, hA.1, (prepare_precios_partition_frame d _).1,
      (upsert_sucursales_frame dfS _).1]
    rfl
  have h1s : (process_daily_data inp sc1 d st0).1.sucursales =
      (if dfS.rows = [] then st0.sucursales
       else upsertAll keyS updS st0.sucursales
         (dfS.rows.map sucursalRecOfRow)) := by
    rw [hst1, hA.2.1, (prepare_precios_partition_frame d _).2.1,
      upsert_sucursales_table]
    rfl
  have h1m : (process_daily_data inp sc1 d st0).1.productosMaster =
      upsertAll keyP updP st0.productosMaster
        ((inp.chunks.map (chunkRecs dfC dfS)).flatten) := by
    rw [hst1, hA.2.2.1, (prepare_precios_partition_frame d _).2.2,
      (upsert_sucursales_frame dfS _).2.1, (upsert_comercios_frame dfC st0).2.1]
  -- projections of the second run's final state
  have hst2 : (process_daily_data inp sc2 d
      (process_daily_data inp sc1 d st0).1).1 =
      (runChunks dfC dfS sc2 d
        (prepare_precios_partition d
          (upsert_sucursales dfS
            (upsert_comercios dfC (process_daily_data inp sc1 d st0).1)))
        0 inp.chunks).1 := by
    rw [e2]
  have h2c : (process_daily_data inp sc2 d
      (process_daily_data inp sc1 d st0).1).1.comercios =
      upsertAll keyC updC (process_daily_data inp sc1 d st0).1.comercios
        (dfC.rows.map comercioRecOfRow) := by
    rw [hst2, hB.1, (prepare_precios_partition_frame d _).1,
      (upsert_sucursales_frame dfS _).1]
    rfl
  have h2s : (process_daily_data inp sc2 d
      (process_daily_data inp sc1 d st0).1).1.sucursales =
      (if dfS.rows = [] then (process_daily_data inp sc1 d st0).1.sucursales
       else upsertAll keyS updS
         (process_daily_data inp sc1 d st0).1.sucursales
         (dfS.rows.map sucursalRecOfRow)) := by
    rw [hst2, hB.2.1, (prepare_precios_partition_frame d _).2.1,
      upsert_sucursales_table]
    rfl
  have h2m : (process_daily_data inp sc2 d
      (process_daily_data inp sc1 d st0).1).1.productosMaster =
      upsertAll keyP updP (process_daily_data inp sc1 d st0).1.productosMaster
        ((inp.chunks.map (chunkRecs dfC dfS)).flatten) := by
    rw [hst2, hB.2.2.1, (prepare_precios_partition_frame d _).2.2,
      (upsert_sucursales_frame dfS _).2.1, (upsert_comercios_frame dfC _).2.1]
  -- the partitions written by each run
  obtain ⟨hp1, -⟩ := hA.2.2.2.2.2 (prepare_hasPart d _)
  obtain ⟨hp2, -⟩ := hB.2.2.2.2.2 (prepare_hasPart d _)
  rw [prepare_partRows, List.nil_append] at hp1 hp2
  have hpart1 : partRows d (process_daily_data inp sc1 d st0).1.precios =
      (inp.chunks.map (chunkLoadRows dfC dfS sc1 d)).flatten := by
    rw [hst1]
    exact hp1
  have hpart2 : partRows d (process_daily_data inp sc2 d
      (process_daily_data inp sc1 d st0).1).1.precios =
      (inp.chunks.map (chunkLoadRows dfC dfS sc2 d)).flatten := by
    rw [hst2]
    exact hp2
  -- the reported totals
  have hn1 : n1 = (inp.chunks.map (chunkCount dfC dfS)).sum := by
    rw [e1] at h1
    injection h1 with h1
    rw [← h1, hA.2.2.2.1]
  -- comercios equality
  have hceq : (process_daily_data inp sc2 d
      (process_daily_data inp sc1 d st0).1).1.comercios =
      (process_daily_data inp sc1 d st0).1.comercios := by
    rw [h2c, h1c, upsertAll_absorb keyC_updC updC_over updC_self]
  -- sucursales equality
  have hseq : (process_daily_data inp sc2 d
      (process_daily_data inp sc1 d st0).1).1.sucursales =
      (process_daily_data inp sc1 d st0).1.sucursales := by
    by_cases hS : dfS.rows = []
    · rw [h2s, if_pos hS]
    · rw [h2s, if_neg hS, h1s, if_neg hS,
        upsertAll_absorb keyS_updS updS_over updS_self]
  -- master equality
  have hmeq : (process_daily_data inp sc2 d
      (process_daily_data inp sc1 d st0).1).1.productosMaster =
      (process_daily_data inp sc1 d st0).1.productosMaster := by
    rw [h2m, h1m, upsertAll_absorb keyP_updP updP_over updP_self]
  refine ⟨?_, hceq, hseq, hmeq, ?_, ?_, ?_, ?_, ?_⟩
  · rw [e2, hB.2.2.2.1, ← hn1]
  · rw [hpart1, hpart2]
    exact flatten_loadRows_length dfC dfS sc2 sc1 d inp.chunks
  · rw [hpart2]
    exact flatten_loadRows_scrapedAt dfC dfS sc2 d inp.chunks
  · intro hnd
    rw [hceq, h1c]
    exact nodup_keys_upsertAll keyC_updC st0.comercios _ hnd
  · intro hnd
    rw [hseq, h1s]
    by_cases hS : dfS.rows = []
    · rw [if_pos hS]
      exact hnd
    · rw [if_neg hS]
      exact nodup_keys_upsertAll keyS_updS st0.sucursales _ hnd
  · intro hnd
    rw [hmeq, h1m]
    exact nodup_keys_upsertAll keyP_updP st0.productosMaster _ hnd

/-- Witness for C2: the one-good-chunk run is re-run for the same date. -/
theorem C2_witness :
    (process_daily_data c3Inp 1 5 dbEmpty).2.2 = Except.ok 2 ∧
    (process_daily_data c3Inp 2 5
        (process_daily_data c3Inp 1 5 dbEmpty).1).2.2 = Except.ok 2 ∧
    (process_daily_data c3Inp 2 5
        (process_daily_data c3Inp 1 5 dbEmpty).1).1.comercios =
      (process_daily_data c3Inp 1 5 dbEmpty).1.comercios :=
  have h : (process_daily_data c3Inp 1 5 dbEmpty).2.2 = Except.ok 2 := by decide
  have hc := C2_idempotent_rerun c3Inp 1 2 5 dbEmpty 2 h
  ⟨h, hc.1, hc.2.1⟩

/-- C9: validate_productos retains the non-positive-price row and logs its
count, as the claim says — but the second half of the claim fails on the
code: no later phase excludes such rows, and the bulk load COPYies the
price −5 row into the precios partition.  The validator's own log message
("will be filtered for precios load") documents the missing exclusion, so
this is a code bug, not a spec error. -/
theorem C9_nonpositive_price_loaded :
    validate_productos pProductosDF =
      Except.ok (pProductosOut, [LogEv.negPrices 1]) ∧
    (∃ r ∈ pProductosOut.rows,
      getV r "productos_precio_lista" = Val.flt ⟨-5, 0⟩ ∧
      nonPositivePrice (Val.flt ⟨-5, 0⟩) = true) ∧
    (process_daily_data c9Inp 1 5 dbEmpty).2.2 = Except.ok 2 ∧
    (∃ p ∈ partRows 5 (process_daily_data c9Inp 1 5 dbEmpty).1.precios,
      p.precioLista = Val.flt ⟨-5, 0⟩) := by
  refine ⟨by decide, by decide, by decide, by decide⟩

end SEPA
